import Mathlib

/-! Zone mapping manager (`zone_test/zone_mapping.cpp`).

A shallow embedding of `leveldb::ZoneMapping` and the properties of its
zone pool, file table and read/write path.

Representation used throughout:

* `zone_list_` is the vector of zone records; a `ZnsZoneInfo*` is the index
  of the record it points to.
* `empty_zones_` and `used_zones_` map a zone id to a pointer into
  `zone_list_`.  Every insertion in the source stores the pair
  `(p->zone_id, p)`, so a map is represented by the ordered list of its keys
  and the pointer stored under key `k` is `&zone_list_[k]`.
* a zone's `files_map` maps a file name to `&files_map_[name]` and is
  represented by its list of keys.
* the zone device (reached through `zns_ptr_`) is external: its state `D` is
  threaded through every operation.  The only handle the source would store
  in the `zone_ptr` of record `k` is `zns_ptr_->GetZone(k)`, and that
  assignment is commented out in the constructor, so a `zone_ptr` is either
  unset or the handle `k`.
* dereferencing an unset `zone_ptr` is undefined behaviour in the source.
  Every operation reports whether it did so (`Ret.unset_deref`); when it
  did, the remaining fields of the result describe the call as it runs with
  record `k` talking to handle `k`, and say nothing about the shipped
  program.
* every operation also returns the list of device primitives it invoked.
* arithmetic with a `size_t` operand (lines 137, 145, 177, 178) is taken
  modulo `SIZE_MOD`; arithmetic between two record fields (lines 78, 114),
  whose types are declared in the absent `zone_mapping.h`, is exact.
-/

namespace leveldb

/-! ## Status -/

/-- Modelled from the spec: the kinds of `leveldb::Status` (declared outside
the sources); the source builds `OK`, `NotFound`, `InvalidArgument` and
`Corruption`, the device may return any kind (§7). -/
inductive Code where
  | kOk
  | kNotFound
  | kCorruption
  | kNotSupported
  | kInvalidArgument
  | kIOError
  deriving DecidableEq, Repr

/-- Modelled from the spec: a `leveldb::Status` (declared outside the
sources) is a kind with a message. -/
structure Status where
  code : Code
  msg : String
  deriving DecidableEq, Repr

namespace Status

def OK : Status := ⟨Code.kOk, ""⟩

def NotFound (msg : String) : Status := ⟨Code.kNotFound, msg⟩

def Corruption (msg : String) : Status := ⟨Code.kCorruption, msg⟩

def InvalidArgument (msg : String) : Status := ⟨Code.kInvalidArgument, msg⟩

def IOError (msg : String) : Status := ⟨Code.kIOError, msg⟩

/-- The predicate `Status::ok()`. -/
def ok (s : Status) : Bool := decide (s.code = Code.kOk)

end Status

/-! ## Records -/

/-- The enum `ZnsFileStat`. -/
inductive ZnsFileStat where
  | kCreated
  | kClosed
  | kDeleted
  deriving DecidableEq, Repr

/-- Modelled from the spec: the File Record of §3.  The fields are the ones
the source assigns; their types are declared in `zone_mapping.h`, which is
not part of the sources, so byte counts and times are natural numbers and
`zone_id` is an integer (the source stores -1 in it). -/
structure ZnsFileInfo where
  file_name : String
  zone_id : Int
  offset : Nat
  length : Nat
  f_stat : ZnsFileStat
  create_time : Nat
  delete_time : Nat
  deriving DecidableEq, Repr

/-- What the `zone_ptr` of a zone record holds: nothing (never assigned), or
the device handle of the record's own zone, `zns_ptr_->GetZone(i)`, which is
the only value the source would store in it. -/
inductive ZonePtr where
  | unset
  | own
  deriving DecidableEq, Repr

/-- Modelled from the spec: the Zone Record of §3.  The fields are the ones
the source uses; their types are declared in `zone_mapping.h`, which is not
part of the sources, so the counters are integers. -/
structure ZnsZoneInfo where
  zone_id : Int
  zone_ptr : ZonePtr
  valid_size : Int
  valid_file_num : Int
  files_map : List String
  deriving DecidableEq, Repr

instance : Inhabited ZnsZoneInfo := ⟨⟨0, ZonePtr.unset, 0, 0, []⟩⟩

/-- Modelled from the spec: what `report()` returns (§6), with the two
fields the source reads. -/
structure ZoneInfo where
  id : Int
  write_pointer : Nat
  deriving DecidableEq, Repr

/-- Modelled from the spec: a device address `(zone_id, offset, length)`
(§6), with the three fields the source assigns. -/
structure ZoneAddress where
  zone_id : Int
  offset : Nat
  length : Nat
  deriving DecidableEq, Repr

/-- The state of a `ZoneMapping` object (without the device behind
`zns_ptr_`). -/
structure ZoneMapping where
  zone_num_ : Int
  zone_list_ : List ZnsZoneInfo
  empty_zones_ : List Int
  used_zones_ : List Int
  files_map_ : List (String × ZnsFileInfo)
  deriving DecidableEq, Repr

/-! ## The zone device -/

/-- Modelled from the spec: the Zone Device Handle of §6 (`zone_namespace`
is not part of the sources).  `D` is the state of the whole device; each
primitive takes the handle (zone index) it is invoked on.  `write_pointer`
is the append position that `report()` returns; write, read and reset return
a status and may change the device in any way. -/
structure ZoneDevice (D : Type) where
  write_pointer : D → Int → Nat
  ZoneWrite : D → Int → ZoneAddress → List Nat → Status × D
  ZoneRead : D → Int → ZoneAddress → Status × List Nat × D
  ResetWritePointer : D → Int → Status × D

/-- Modelled from the spec: `report() -> {write_pointer, zone_identity}`; the
handle reports its own identity. -/
def ZoneDevice.ReportZone {D : Type} (dev : ZoneDevice D) (d : D) (handle : Int) : ZoneInfo :=
  { id := handle, write_pointer := dev.write_pointer d handle }

/-- A device primitive invoked by an operation, with the handle it was
invoked on. -/
inductive DevCall where
  | ReportZone (handle : Int)
  | ZoneWrite (handle : Int) (addr : ZoneAddress) (buffer : List Nat)
  | ZoneRead (handle : Int) (addr : ZoneAddress)
  | ResetWritePointer (handle : Int)
  deriving DecidableEq, Repr

/-- What a call leaves behind: the returned status, the mapping, the device,
the device primitives invoked (in order), the bytes a read stored in the
caller's buffer, and whether the call dereferenced a `zone_ptr` that was
never assigned.  That dereference is undefined behaviour in the source: when
`unset_deref` is true the other fields describe the call as it runs with the
record talking to the handle of its own zone, not what the shipped program
does. -/
structure Ret (D : Type) where
  status : Status
  self : ZoneMapping
  zns : D
  calls : List DevCall
  data : List Nat
  unset_deref : Bool

/-! ## Containers -/

/-- Modelled from the spec: the container type of `empty_zones_` and
`used_zones_` is declared in `zone_mapping.h`, which is not part of the
sources; §4.1 lets `begin()` be lowest-identifier-first, so `insert` keeps
the key list in increasing order (and leaves an existing key alone), as
`std::map::insert` does. -/
def mapInsert (k : Int) : List Int → List Int
  | [] => [k]
  | b :: l => if k < b then k :: b :: l else if k = b then b :: l else b :: mapInsert k l

/-- Removal `erase(key)` on the key list. -/
def mapErase (k : Int) (m : List Int) : List Int := m.filter (fun x => decide (x ≠ k))

/-- Lookup `files_map_.find(name)`. -/
def findFile (m : List (String × ZnsFileInfo)) (name : String) : Option ZnsFileInfo :=
  match m with
  | [] => none
  | p :: l => if p.1 = name then some p.2 else findFile l name

/-- Assignment through `found->second`. -/
def updateFile (m : List (String × ZnsFileInfo)) (name : String)
    (f : ZnsFileInfo → ZnsFileInfo) : List (String × ZnsFileInfo) :=
  m.map (fun p => if p.1 = name then (p.1, f p.2) else p)

/-- Insertion into a zone's `files_map` (an `unordered_map` of names). -/
def namesInsert (name : String) (m : List String) : List String :=
  if name ∈ m then m else name :: m

/-- Removal `erase(name)` on a zone's `files_map`. -/
def namesErase (name : String) (m : List String) : List String :=
  m.filter (fun x => decide (x ≠ name))

/-- Dereference of the zone pointer stored under key `k`. -/
def zoneAt (zl : List ZnsZoneInfo) (k : Int) : ZnsZoneInfo := zl.getD k.toNat default

/-- Assignment through the zone pointer stored under key `k`. -/
def modifyZone (zl : List ZnsZoneInfo) (k : Int) (f : ZnsZoneInfo → ZnsZoneInfo) :
    List ZnsZoneInfo :=
  zl.set k.toNat (f (zoneAt zl k))

/-- Whether the zone record under key `k` has an unset `zone_ptr`. -/
def ptrUnset (zl : List ZnsZoneInfo) (k : Int) : Bool :=
  decide ((zoneAt zl k).zone_ptr = ZonePtr.unset)

/-- The modulus of `size_t` arithmetic (64-bit). -/
def SIZE_MOD : Nat := 2 ^ 64

/-! ## Operations -/

/-- The constructor `ZoneMapping::ZoneMapping(zns, zone_num)`.  The loop
assigns `valid_size` twice and `valid_file_num` never: `uninit i` is the
indeterminate value record `i` starts with.  The assignment of `zone_ptr`
(line 18) is commented out, so every record starts with `zone_ptr` unset; no
method assigns it later. -/
def ZoneMapping.new (zone_num : Int) (uninit : Nat → Int) : ZoneMapping :=
  let ids := List.range zone_num.toNat
  { zone_num_ := zone_num
    zone_list_ := ids.map (fun (i : Nat) =>
      { zone_id := (i : Int), zone_ptr := ZonePtr.unset, valid_size := 0,
        valid_file_num := uninit i, files_map := [] })
    empty_zones_ := ids.foldl (fun m (i : Nat) => mapInsert (i : Int) m) []
    used_zones_ := []
    files_map_ := [] }

/-- The method `ZoneMapping::GetAndUseOneEmptyZone`.  `z_info_ptr` is what
the caller's output argument holds; the source assigns only its by-value
copy, so the caller's value comes back as it went in.  (The source reads
`tmp->second` after erasing `tmp`; the reads are taken to see the erased
entry.) -/
def GetAndUseOneEmptyZone {D : Type} (s : ZoneMapping) (d : D) (z_info_ptr : Option Int) :
    Ret D × Option Int :=
  match s.empty_zones_ with
  | [] => (⟨Status.NotFound "invalid", s, d, [], [], false⟩, z_info_ptr)
  | tmp :: _ =>
    let id := (zoneAt s.zone_list_ tmp).zone_id
    (⟨Status.OK,
      { s with empty_zones_ := mapErase id s.empty_zones_
               used_zones_ := mapInsert id s.used_zones_ }, d, [], [], false⟩, z_info_ptr)

/-- The method `ZoneMapping::CreateFileOnZone`; `now` is `env->NowMicros()`.
The reference argument `offset` is never assigned and is left out.  Past the
guard the method dereferences the zone's `zone_ptr` (lines 52-53). -/
def CreateFileOnZone {D : Type} (dev : ZoneDevice D) (s : ZoneMapping) (d : D) (now : Nat)
    (file_name : String) (zone_id : Int) : Ret D :=
  if (findFile s.files_map_ file_name).isSome ∨ zone_id ∉ s.used_zones_ then
    ⟨Status.InvalidArgument "invalid", s, d, [], [], false⟩
  else
    let zl1 := modifyZone s.zone_list_ zone_id
      (fun z => { z with valid_file_num := z.valid_file_num + 1 })
    let z_info := dev.ReportZone d zone_id
    let tmp_info : ZnsFileInfo :=
      { file_name := file_name
        zone_id := z_info.id
        offset := z_info.write_pointer
        length := 0
        f_stat := ZnsFileStat.kCreated
        create_time := now
        delete_time := 0 }
    let zl2 := modifyZone zl1 zone_id
      (fun z => { z with files_map := namesInsert file_name z.files_map })
    ⟨Status.OK,
      { s with zone_list_ := zl2, files_map_ := (file_name, tmp_info) :: s.files_map_ },
      d, [DevCall.ReportZone zone_id], [], ptrUnset s.zone_list_ zone_id⟩

/-- The method `ZoneMapping::DeleteFileOnZone`; `now` is `env->NowMicros()`.
The result of `ResetWritePointer` is dropped, as in the source; `zone_ptr` is
dereferenced only in the reclaiming branch. -/
def DeleteFileOnZone {D : Type} (dev : ZoneDevice D) (s : ZoneMapping) (d : D) (now : Nat)
    (file_name : String) : Ret D :=
  match findFile s.files_map_ file_name with
  | none => ⟨Status.OK, s, d, [], [], false⟩
  | some found =>
    if found.zone_id ∉ s.used_zones_ then
      ⟨Status.Corruption "invalid", s, d, [], [], false⟩
    else
      let zl := modifyZone s.zone_list_ found.zone_id (fun z =>
        { z with valid_size := z.valid_size - (found.length : Int)
                 valid_file_num := z.valid_file_num - 1
                 files_map := namesErase file_name z.files_map })
      let z_info := zoneAt zl found.zone_id
      let fm := updateFile s.files_map_ file_name (fun f =>
        { f with f_stat := ZnsFileStat.kDeleted
                 delete_time := now
                 length := 0
                 offset := 0
                 zone_id := -1 })
      if z_info.valid_size = 0 then
        ⟨Status.OK,
          { s with zone_list_ := zl
                   empty_zones_ := mapInsert z_info.zone_id s.empty_zones_
                   used_zones_ := mapErase z_info.zone_id s.used_zones_
                   files_map_ := fm },
          (dev.ResetWritePointer d found.zone_id).2,
          [DevCall.ResetWritePointer found.zone_id], [], ptrUnset s.zone_list_ found.zone_id⟩
      else
        ⟨Status.OK, { s with zone_list_ := zl, files_map_ := fm }, d, [], [], false⟩

/-- The method `ZoneMapping::CloseFileOnZone`. -/
def CloseFileOnZone {D : Type} (s : ZoneMapping) (d : D) (file_name : String) : Ret D :=
  match findFile s.files_map_ file_name with
  | none => ⟨Status.InvalidArgument "invalid", s, d, [], [], false⟩
  | some found =>
    if found.f_stat = ZnsFileStat.kDeleted then
      ⟨Status.InvalidArgument "invalid", s, d, [], [], false⟩
    else if found.zone_id ∉ s.used_zones_ then
      ⟨Status.Corruption "invalid", s, d, [], [], false⟩
    else
      let fm := updateFile s.files_map_ file_name (fun f =>
        { f with f_stat := ZnsFileStat.kClosed })
      let zl := modifyZone s.zone_list_ found.zone_id (fun z =>
        { z with valid_size := z.valid_size + (found.length : Int) })
      ⟨Status.OK, { s with zone_list_ := zl, files_map_ := fm }, d, [], [], false⟩

/-- The method `ZoneMapping::ReadFileOnZone`.  `offset` and `len` are
`size_t`, so `offset+len` and the device offset `found->second.offset +
offset` are taken modulo `SIZE_MOD`. -/
def ReadFileOnZone {D : Type} (dev : ZoneDevice D) (s : ZoneMapping) (d : D)
    (file_name : String) (offset len : Nat) : Ret D :=
  match findFile s.files_map_ file_name with
  | none => ⟨Status.InvalidArgument "invalid", s, d, [], [], false⟩
  | some found =>
    if found.f_stat = ZnsFileStat.kDeleted then
      ⟨Status.InvalidArgument "invalid", s, d, [], [], false⟩
    else if found.zone_id ∉ s.used_zones_ then
      ⟨Status.Corruption "invalid", s, d, [], [], false⟩
    else if offset > found.length then
      ⟨Status.InvalidArgument "invalid", s, d, [], [], false⟩
    else
      let valid_len :=
        if (offset + len) % SIZE_MOD > found.length then found.length - offset else len
      let z_address : ZoneAddress :=
        { zone_id := (zoneAt s.zone_list_ found.zone_id).zone_id
          offset := (found.offset + offset) % SIZE_MOD
          length := valid_len }
      let r := dev.ZoneRead d found.zone_id z_address
      ⟨r.1, s, r.2.2, [DevCall.ZoneRead found.zone_id z_address], r.2.1,
        ptrUnset s.zone_list_ found.zone_id⟩

/-- The method `ZoneMapping::WriteFileOnZone`.  `len` is `size_t`, so the two
`+= len` are taken modulo `SIZE_MOD` (the counters are taken to be 64 bits
wide and not negative; their types are declared in `zone_mapping.h`). -/
def WriteFileOnZone {D : Type} (dev : ZoneDevice D) (s : ZoneMapping) (d : D)
    (file_name : String) (len : Nat) (buffer : List Nat) : Ret D :=
  match findFile s.files_map_ file_name with
  | none => ⟨Status.InvalidArgument "invalid", s, d, [], [], false⟩
  | some found =>
    if found.f_stat = ZnsFileStat.kDeleted then
      ⟨Status.InvalidArgument "invalid", s, d, [], [], false⟩
    else if found.zone_id ∉ s.used_zones_ then
      ⟨Status.Corruption "invalid", s, d, [], [], false⟩
    else
      let z_info := dev.ReportZone d found.zone_id
      let z_address : ZoneAddress :=
        { zone_id := (zoneAt s.zone_list_ found.zone_id).zone_id
          offset := z_info.write_pointer
          length := len }
      let r := dev.ZoneWrite d found.zone_id z_address buffer
      let calls :=
        [DevCall.ReportZone found.zone_id, DevCall.ZoneWrite found.zone_id z_address buffer]
      if ¬ r.1.ok then
        ⟨r.1, s, r.2, calls, [], ptrUnset s.zone_list_ found.zone_id⟩
      else
        let fm := updateFile s.files_map_ file_name (fun f =>
          { f with length := (f.length + len) % SIZE_MOD })
        let zl := modifyZone s.zone_list_ found.zone_id (fun z =>
          { z with valid_size := (z.valid_size + (len : Int)) % (SIZE_MOD : Int) })
        ⟨Status.OK, { s with zone_list_ := zl, files_map_ := fm }, r.2, calls, [],
          ptrUnset s.zone_list_ found.zone_id⟩

/-- The method `ZoneMapping::IsFileInZone`. -/
def IsFileInZone (s : ZoneMapping) (file_name : String) : Bool :=
  match findFile s.files_map_ file_name with
  | none => false
  | some found => if found.f_stat = ZnsFileStat.kDeleted then false else true

/-! ## Sequences of calls -/

/-- One call on the manager, with its arguments. -/
inductive Op where
  | GetAndUseOneEmptyZone
  | CreateFileOnZone (now : Nat) (file_name : String) (zone_id : Int)
  | WriteFileOnZone (file_name : String) (len : Nat) (buffer : List Nat)
  | CloseFileOnZone (file_name : String)
  | ReadFileOnZone (file_name : String) (offset len : Nat)
  | DeleteFileOnZone (now : Nat) (file_name : String)
  deriving DecidableEq, Repr

/-- Perform one call. -/
def Op.run {D : Type} (dev : ZoneDevice D) (s : ZoneMapping) (d : D) : Op → Ret D
  | Op.GetAndUseOneEmptyZone => (leveldb.GetAndUseOneEmptyZone s d none).1
  | Op.CreateFileOnZone now file_name zone_id => leveldb.CreateFileOnZone dev s d now file_name zone_id
  | Op.WriteFileOnZone file_name len buffer => leveldb.WriteFileOnZone dev s d file_name len buffer
  | Op.CloseFileOnZone file_name => leveldb.CloseFileOnZone s d file_name
  | Op.ReadFileOnZone file_name offset len => leveldb.ReadFileOnZone dev s d file_name offset len
  | Op.DeleteFileOnZone now file_name => leveldb.DeleteFileOnZone dev s d now file_name

/-- Perform a sequence of calls, first to last, from mapping `s` and device
`d`; the statuses are discarded. -/
def runOps {D : Type} (dev : ZoneDevice D) : List Op → ZoneMapping × D → ZoneMapping × D
  | [], sd => sd
  | op :: ops, sd => runOps dev ops ((op.run dev sd.1 sd.2).self, (op.run dev sd.1 sd.2).zns)

/-- The states reachable from construction with `zone_num` zones on a device
in state `d0`. -/
def reach {D : Type} (dev : ZoneDevice D) (zone_num : Int) (uninit : Nat → Int) (d0 : D)
    (ops : List Op) : ZoneMapping × D :=
  runOps dev ops (ZoneMapping.new zone_num uninit, d0)

/-! ## A device for running scenarios -/

/-- A device that never fails: its state is the list of write pointers, a
write of `length` bytes advances the pointer of its zone, a reset returns it
to 0, a read succeeds and transfers no bytes (contents are not kept). -/
def wpDevice : ZoneDevice (List Nat) where
  write_pointer := fun d h => d.getD h.toNat 0
  ZoneWrite := fun d h a _ => (Status.OK, d.set h.toNat (d.getD h.toNat 0 + a.length))
  ZoneRead := fun d _ _ => (Status.OK, [], d)
  ResetWritePointer := fun d h => (Status.OK, d.set h.toNat 0)

/-- A device on which every write and every reset fails with an I/O error
and changes nothing; reads succeed. -/
def brokenDevice : ZoneDevice (List Nat) where
  write_pointer := fun d h => d.getD h.toNat 0
  ZoneWrite := fun d _ _ _ => (Status.IOError "device", d)
  ZoneRead := fun d _ _ => (Status.OK, [], d)
  ResetWritePointer := fun d _ => (Status.IOError "device", d)

/-! ## Invariants and specification-side quantities -/

/-- The pool invariant for a manager built with `zone_num` zones: record `k`
of `zone_list_` carries `zone_id = k`, the two pools partition the ids below
`zone_num`, and each key list is strictly increasing (so it lists the keys
of a `std::map` in iteration order, without repetition). -/
structure PoolInv (zone_num : Int) (s : ZoneMapping) : Prop where
  len : s.zone_list_.length = zone_num.toNat
  ids : ∀ k : Int, 0 ≤ k → k < zone_num → (zoneAt s.zone_list_ k).zone_id = k
  cover : ∀ k : Int, (k ∈ s.empty_zones_ ∨ k ∈ s.used_zones_) ↔ (0 ≤ k ∧ k < zone_num)
  disj : ∀ k : Int, k ∈ s.empty_zones_ → k ∉ s.used_zones_
  sortedE : s.empty_zones_.Pairwise (fun a b => a < b)
  sortedU : s.used_zones_.Pairwise (fun a b => a < b)

/-- The representation invariant of the pools: the pointer stored under key
`k` addresses a record of `zone_list_`, and that record has `zone_id = k`. -/
def WellFormed (s : ZoneMapping) : Prop :=
  ∀ k ∈ s.empty_zones_ ++ s.used_zones_,
    0 ≤ k ∧ k.toNat < s.zone_list_.length ∧ (zoneAt s.zone_list_ k).zone_id = k

instance (s : ZoneMapping) : Decidable (WellFormed s) := by
  unfold WellFormed
  infer_instance

/-- The file records resident in zone `k`: the records its `files_map`
points to. -/
def residentFiles (s : ZoneMapping) (k : Int) : List ZnsFileInfo :=
  (zoneAt s.zone_list_ k).files_map.filterMap (findFile s.files_map_)

/-- The sum of `length` over the file records resident in zone `k` whose
status is `kClosed`: what the occupancy invariant equates `valid_size`
with. -/
def closedLength (s : ZoneMapping) (k : Int) : Int :=
  (((residentFiles s k).filter (fun f => decide (f.f_stat = ZnsFileStat.kClosed))).map
    (fun f => (f.length : Int))).sum

/-! ## Scenarios -/

/-- One zone, acquired, no file. -/
def afterAcquire : ZoneMapping × List Nat :=
  reach wpDevice 1 (fun _ => 0) [0] [Op.GetAndUseOneEmptyZone]

/-- One zone, acquired, with file "a" created on it. -/
def afterCreate : ZoneMapping × List Nat :=
  reach wpDevice 1 (fun _ => 0) [0]
    [Op.GetAndUseOneEmptyZone, Op.CreateFileOnZone 1 "a" 0]

/-- One zone, acquired, file "a" created on it and 10 bytes written. -/
def afterWrite : ZoneMapping × List Nat :=
  runOps wpDevice [Op.WriteFileOnZone "a" 10 (List.replicate 10 0)] afterCreate

/-- The state `afterWrite` with "a" closed. -/
def afterClose : ZoneMapping × List Nat :=
  runOps wpDevice [Op.CloseFileOnZone "a"] afterWrite

/-- One zone, acquired, file "a" created on it and deleted again. -/
def afterDelete : ZoneMapping × List Nat :=
  runOps wpDevice [Op.DeleteFileOnZone 2 "a"] afterCreate

/-- Two zones: zone 0 acquired, "a" created on it, 100 bytes written, "a"
closed. -/
def endToEnd : ZoneMapping × List Nat :=
  reach wpDevice 2 (fun _ => 0) [0, 0]
    [Op.GetAndUseOneEmptyZone, Op.CreateFileOnZone 1 "a" 0,
      Op.WriteFileOnZone "a" 100 (List.replicate 100 0), Op.CloseFileOnZone "a"]

/-- One zone, acquired, with files "a" and "b" created on it and nothing
written. -/
def twoFiles : ZoneMapping × List Nat :=
  reach wpDevice 1 (fun _ => 0) [0]
    [Op.GetAndUseOneEmptyZone, Op.CreateFileOnZone 1 "a" 0, Op.CreateFileOnZone 2 "b" 0]

/-! ## Counting calls -/

/-- Whether a call is `GetAndUseOneEmptyZone`. -/
def Op.isAcquire : Op → Bool
  | Op.GetAndUseOneEmptyZone => true
  | _ => false

/-- Whether a call is `DeleteFileOnZone`. -/
def Op.isDelete : Op → Bool
  | Op.DeleteFileOnZone _ _ => true
  | _ => false

/-- The number of `GetAndUseOneEmptyZone` calls in a sequence. -/
def acquireCount (ops : List Op) : Nat := ops.countP Op.isAcquire

/-- Every zone in `empty_zones_` has `valid_size = 0`. -/
def EmptyZero (s : ZoneMapping) : Prop :=
  ∀ k ∈ s.empty_zones_, (zoneAt s.zone_list_ k).valid_size = 0

/-! ## Status order and a device that keeps its bytes -/

/-- The position of a status in the life of a file record. -/
def ZnsFileStat.rank : ZnsFileStat → Nat
  | ZnsFileStat.kCreated => 0
  | ZnsFileStat.kClosed => 1
  | ZnsFileStat.kDeleted => 2

/-- A device that keeps the bytes of every zone.  A write succeeds, and
appends its buffer, when the zone exists, the address is at the write
pointer, the buffer has the announced length and holds bytes (values below
256); otherwise it fails and changes nothing. -/
def dataDevice : ZoneDevice (List (List Nat)) where
  write_pointer := fun d h => (d.getD h.toNat []).length
  ZoneWrite := fun d h a buf =>
    if h.toNat < d.length ∧ a.offset = (d.getD h.toNat []).length ∧ buf.length = a.length ∧
        buf.all (fun b => decide (b < 256)) = true then
      (Status.OK, d.set h.toNat (d.getD h.toNat [] ++ buf))
    else (Status.IOError "write", d)
  ZoneRead := fun d h a => (Status.OK, ((d.getD h.toNat []).drop a.offset).take a.length, d)
  ResetWritePointer := fun d h => (Status.OK, d.set h.toNat [])

/-- The bytes zone `h` of `dataDevice` holds. -/
def dataContent (d : List (List Nat)) (h : Int) : List Nat := d.getD h.toNat []

/-- One zone, acquired, files "a" and "b" created on it, then 10 bytes
written to "a" and 10 bytes to "b". -/
def interleaved : ZoneMapping × List Nat :=
  runOps wpDevice
    [Op.WriteFileOnZone "a" 10 (List.replicate 10 1),
      Op.WriteFileOnZone "b" 10 (List.replicate 10 2)] twoFiles

/-! ## The unset zone pointer, counters near the wrap, and a file left in a reclaimed zone -/

/-- Every record has its `zone_ptr` unset. -/
def AllUnset (s : ZoneMapping) : Prop :=
  ∀ k : Int, (zoneAt s.zone_list_ k).zone_ptr = ZonePtr.unset

/-- On the device that keeps its bytes: zone 0 is acquired, "b" and "a" are
created on it, "a" is deleted (which reclaims the zone although "b" is
still there), the zone is acquired again and "f" is created on it. -/
def orphanStart : ZoneMapping × List (List Nat) :=
  reach dataDevice 1 (fun _ => 0) [[]]
    [Op.GetAndUseOneEmptyZone, Op.CreateFileOnZone 1 "b" 0, Op.CreateFileOnZone 2 "a" 0,
      Op.DeleteFileOnZone 3 "a", Op.GetAndUseOneEmptyZone, Op.CreateFileOnZone 4 "f" 0]

/-- The state `orphanStart` after writing `[1, 2]` to "f". -/
def orphanFirst : ZoneMapping × List (List Nat) :=
  runOps dataDevice [Op.WriteFileOnZone "f" 2 [1, 2]] orphanStart

/-- The state `orphanFirst` after writing `[9]` to "b". -/
def orphanOther : ZoneMapping × List (List Nat) :=
  runOps dataDevice [Op.WriteFileOnZone "b" 1 [9]] orphanFirst

/-- The state `orphanOther` after writing `[3]` to "f". -/
def orphanTail : ZoneMapping × List (List Nat) :=
  runOps dataDevice [Op.WriteFileOnZone "f" 1 [3]] orphanOther

/-! ## Container lemmas -/

theorem mem_mapInsert (x k : Int) (l : List Int) : x ∈ mapInsert k l ↔ x = k ∨ x ∈ l := by
  induction l with
  | nil => simp [mapInsert]
  | cons b l ih =>
    unfold mapInsert
    split_ifs with h1 h2
    · simp
    · subst h2; simp
    · simp only [List.mem_cons, ih]; tauto

theorem mem_mapErase (x k : Int) (l : List Int) : x ∈ mapErase k l ↔ x ∈ l ∧ x ≠ k := by
  simp [mapErase]

theorem pairwise_mapInsert (k : Int) (l : List Int) (h : l.Pairwise (fun a b => a < b)) :
    (mapInsert k l).Pairwise (fun a b => a < b) := by
  induction l with
  | nil => simp [mapInsert]
  | cons b l ih =>
    rw [List.pairwise_cons] at h
    unfold mapInsert
    split_ifs with h1 h2
    · refine List.pairwise_cons.2 ⟨?_, List.pairwise_cons.2 h⟩
      intro x hx
      rcases List.mem_cons.1 hx with rfl | hx
      · exact h1
      · exact lt_trans h1 (h.1 x hx)
    · exact List.pairwise_cons.2 h
    · refine List.pairwise_cons.2 ⟨?_, ih h.2⟩
      intro x hx
      rcases (mem_mapInsert x k l).1 hx with rfl | hx
      · omega
      · exact h.1 x hx

theorem pairwise_mapErase (k : Int) (l : List Int) (h : l.Pairwise (fun a b => a < b)) :
    (mapErase k l).Pairwise (fun a b => a < b) :=
  h.filter _

theorem pairwise_foldl_mapInsert (l : List Nat) :
    ∀ acc : List Int, acc.Pairwise (fun a b => a < b) →
      (l.foldl (fun m (i : Nat) => mapInsert (i : Int) m) acc).Pairwise (fun a b => a < b) := by
  induction l with
  | nil => intro acc h; exact h
  | cons a l ih => intro acc h; exact ih _ (pairwise_mapInsert _ _ h)

theorem length_modifyZone (zl : List ZnsZoneInfo) (k : Int) (f : ZnsZoneInfo → ZnsZoneInfo) :
    (modifyZone zl k f).length = zl.length := by
  simp [modifyZone]

theorem getD_modifyZone (zl : List ZnsZoneInfo) (k : Int) (f : ZnsZoneInfo → ZnsZoneInfo)
    (i : Nat) :
    (modifyZone zl k f).getD i default =
      if k.toNat = i ∧ i < zl.length then f (zl.getD i default) else zl.getD i default := by
  unfold modifyZone zoneAt
  simp only [List.getD_eq_getElem?_getD, List.getElem?_set]
  by_cases h : k.toNat = i
  · subst h
    by_cases h2 : k.toNat < zl.length
    · simp [h2]
    · simp [h2, List.getElem?_eq_none (not_lt.mp h2)]
  · simp [h]

theorem zoneAt_modifyZone (zl : List ZnsZoneInfo) (k j : Int) (f : ZnsZoneInfo → ZnsZoneInfo) :
    zoneAt (modifyZone zl k f) j =
      if k.toNat = j.toNat ∧ j.toNat < zl.length then f (zoneAt zl j) else zoneAt zl j := by
  unfold zoneAt
  exact getD_modifyZone zl k f j.toNat

theorem zone_id_modifyZone (zl : List ZnsZoneInfo) (k j : Int) (f : ZnsZoneInfo → ZnsZoneInfo)
    (hf : ∀ z, (f z).zone_id = z.zone_id) :
    (zoneAt (modifyZone zl k f) j).zone_id = (zoneAt zl j).zone_id := by
  rw [zoneAt_modifyZone]
  split_ifs
  · exact hf _
  · rfl

theorem mem_foldl_mapInsert (l : List Nat) (acc : List Int) (x : Int) :
    x ∈ l.foldl (fun m (i : Nat) => mapInsert (i : Int) m) acc ↔
      x ∈ acc ∨ ∃ i ∈ l, x = (i : Int) := by
  induction l generalizing acc with
  | nil => simp
  | cons a l ih =>
    simp only [List.foldl_cons, ih, mem_mapInsert, List.mem_cons]
    constructor
    · rintro ((h | h) | ⟨i, hi, rfl⟩)
      · exact Or.inr ⟨a, Or.inl rfl, h⟩
      · exact Or.inl h
      · exact Or.inr ⟨i, Or.inr hi, rfl⟩
    · rintro (h | ⟨i, hi | hi, rfl⟩)
      · exact Or.inl (Or.inr h)
      · subst hi; exact Or.inl (Or.inl rfl)
      · exact Or.inr ⟨i, hi, rfl⟩

/-! ## The pool invariant is kept by every call -/

theorem PoolInv.new (zone_num : Int) (uninit : Nat → Int) :
    PoolInv zone_num (ZoneMapping.new zone_num uninit) := by
  refine ⟨by simp [ZoneMapping.new], ?_, ?_, ?_,
    pairwise_foldl_mapInsert _ _ List.Pairwise.nil, List.Pairwise.nil⟩
  · intro k h0 h1
    have hk : k.toNat < zone_num.toNat := by omega
    simp [ZoneMapping.new, zoneAt, List.getD_eq_getElem?_getD, List.getElem?_map,
      List.getElem?_range hk]
    omega
  · intro k
    simp only [ZoneMapping.new, mem_foldl_mapInsert, List.mem_range, List.not_mem_nil,
      false_or, or_false]
    constructor
    · rintro ⟨i, hi, rfl⟩; omega
    · rintro ⟨h0, h1⟩; exact ⟨k.toNat, by omega, by omega⟩
  · intro k _
    simp [ZoneMapping.new]

theorem PoolInv.update {n : Int} {s : ZoneMapping} (h : PoolInv n s)
    (zl : List ZnsZoneInfo) (fm : List (String × ZnsFileInfo))
    (hlen : zl.length = s.zone_list_.length)
    (hid : ∀ j, (zoneAt zl j).zone_id = (zoneAt s.zone_list_ j).zone_id) :
    PoolInv n { s with zone_list_ := zl, files_map_ := fm } :=
  ⟨hlen.trans h.len, fun k h0 h1 => (hid k).trans (h.ids k h0 h1), h.cover, h.disj,
    h.sortedE, h.sortedU⟩

theorem PoolInv.move_to_used {n : Int} {s : ZoneMapping} (h : PoolInv n s) (k : Int)
    (hk : k ∈ s.empty_zones_) :
    PoolInv n { s with empty_zones_ := mapErase k s.empty_zones_
                       used_zones_ := mapInsert k s.used_zones_ } := by
  refine ⟨h.len, h.ids, ?_, ?_, pairwise_mapErase _ _ h.sortedE,
    pairwise_mapInsert _ _ h.sortedU⟩
  · intro j
    simp only [mem_mapErase, mem_mapInsert]
    have hc := h.cover j
    have hk2 := (h.cover k).1 (Or.inl hk)
    constructor
    · rintro (⟨hj, _⟩ | rfl | hj)
      · exact hc.1 (Or.inl hj)
      · exact hk2
      · exact hc.1 (Or.inr hj)
    · intro hj
      by_cases hjk : j = k
      · exact Or.inr (Or.inl hjk)
      · rcases hc.2 hj with hj | hj
        · exact Or.inl ⟨hj, hjk⟩
        · exact Or.inr (Or.inr hj)
  · intro j
    simp only [mem_mapErase, mem_mapInsert]
    rintro ⟨hj, hjk⟩ (rfl | hu)
    · exact hjk rfl
    · exact h.disj j hj hu

theorem PoolInv.move_to_empty {n : Int} {s : ZoneMapping} (h : PoolInv n s) (k : Int)
    (hk : k ∈ s.used_zones_) :
    PoolInv n { s with empty_zones_ := mapInsert k s.empty_zones_
                       used_zones_ := mapErase k s.used_zones_ } := by
  refine ⟨h.len, h.ids, ?_, ?_, pairwise_mapInsert _ _ h.sortedE,
    pairwise_mapErase _ _ h.sortedU⟩
  · intro j
    simp only [mem_mapErase, mem_mapInsert]
    have hc := h.cover j
    have hk2 := (h.cover k).1 (Or.inr hk)
    constructor
    · rintro ((rfl | hj) | ⟨hj, _⟩)
      · exact hk2
      · exact hc.1 (Or.inl hj)
      · exact hc.1 (Or.inr hj)
    · intro hj
      by_cases hjk : j = k
      · exact Or.inl (Or.inl hjk)
      · rcases hc.2 hj with hj | hj
        · exact Or.inl (Or.inr hj)
        · exact Or.inr ⟨hj, hjk⟩
  · intro j
    simp only [mem_mapErase, mem_mapInsert]
    rintro (rfl | hj) ⟨hu, hjk⟩
    · exact hjk rfl
    · exact h.disj j hj hu

theorem PoolInv.GetAndUseOneEmptyZone {D : Type} {n : Int} {s : ZoneMapping}
    (h : PoolInv n s) (d : D) (p : Option Int) :
    PoolInv n (leveldb.GetAndUseOneEmptyZone s d p).1.self := by
  unfold leveldb.GetAndUseOneEmptyZone
  split
  · exact h
  · next tmp rest he =>
    have hmem : tmp ∈ s.empty_zones_ := by rw [he]; simp
    have hr := (h.cover tmp).1 (Or.inl hmem)
    have hid := h.ids tmp hr.1 hr.2
    simp only [hid]
    exact h.move_to_used tmp hmem

theorem PoolInv.CreateFileOnZone {D : Type} {n : Int} {s : ZoneMapping} (h : PoolInv n s)
    (dev : ZoneDevice D) (d : D) (now : Nat) (file_name : String) (zone_id : Int) :
    PoolInv n (leveldb.CreateFileOnZone dev s d now file_name zone_id).self := by
  unfold leveldb.CreateFileOnZone
  split_ifs
  · exact h
  · dsimp only
    refine h.update _ _ (by simp [length_modifyZone]) (fun j => ?_)
    rw [zone_id_modifyZone _ _ _ _ (by intro _; rfl),
      zone_id_modifyZone _ _ _ _ (by intro _; rfl)]

theorem PoolInv.CloseFileOnZone {D : Type} {n : Int} {s : ZoneMapping} (h : PoolInv n s)
    (d : D) (file_name : String) :
    PoolInv n (leveldb.CloseFileOnZone s d file_name).self := by
  unfold leveldb.CloseFileOnZone
  split
  · exact h
  · dsimp only
    split_ifs
    all_goals first
      | exact h
      | exact h.update _ _ (by simp [length_modifyZone])
          (fun j => zone_id_modifyZone _ _ _ _ (by intro _; rfl))

theorem PoolInv.ReadFileOnZone {D : Type} {n : Int} {s : ZoneMapping} (h : PoolInv n s)
    (dev : ZoneDevice D) (d : D) (file_name : String) (offset len : Nat) :
    PoolInv n (leveldb.ReadFileOnZone dev s d file_name offset len).self := by
  unfold leveldb.ReadFileOnZone
  split
  · exact h
  · dsimp only
    split_ifs <;> exact h

theorem PoolInv.WriteFileOnZone {D : Type} {n : Int} {s : ZoneMapping} (h : PoolInv n s)
    (dev : ZoneDevice D) (d : D) (file_name : String) (len : Nat) (buffer : List Nat) :
    PoolInv n (leveldb.WriteFileOnZone dev s d file_name len buffer).self := by
  unfold leveldb.WriteFileOnZone
  split
  · exact h
  · dsimp only
    split_ifs
    all_goals first
      | exact h
      | exact h.update _ _ (by simp [length_modifyZone])
          (fun j => zone_id_modifyZone _ _ _ _ (by intro _; rfl))

theorem PoolInv.DeleteFileOnZone {D : Type} {n : Int} {s : ZoneMapping} (h : PoolInv n s)
    (dev : ZoneDevice D) (d : D) (now : Nat) (file_name : String) :
    PoolInv n (leveldb.DeleteFileOnZone dev s d now file_name).self := by
  unfold leveldb.DeleteFileOnZone
  split
  · exact h
  · next found hf =>
    dsimp only
    by_cases hu : found.zone_id ∈ s.used_zones_
    · have hr := (h.cover found.zone_id).1 (Or.inr hu)
      have hid : (zoneAt (modifyZone s.zone_list_ found.zone_id (fun z =>
          { z with valid_size := z.valid_size - (found.length : Int)
                   valid_file_num := z.valid_file_num - 1
                   files_map := namesErase file_name z.files_map })) found.zone_id).zone_id
            = found.zone_id := by
        rw [zone_id_modifyZone _ _ _ _ (by intro _; rfl)]
        exact h.ids _ hr.1 hr.2
      simp only [hid, hu, not_true_eq_false, if_false]
      split_ifs
      · exact (h.move_to_empty found.zone_id hu).update _ _ (by simp [length_modifyZone])
          (fun j => zone_id_modifyZone _ _ _ _ (by intro _; rfl))
      · exact h.update _ _ (by simp [length_modifyZone])
          (fun j => zone_id_modifyZone _ _ _ _ (by intro _; rfl))
    · simp only [hu, not_false_eq_true, if_true]
      exact h

theorem PoolInv.run {D : Type} {n : Int} {s : ZoneMapping} (h : PoolInv n s)
    (dev : ZoneDevice D) (d : D) (op : Op) : PoolInv n (op.run dev s d).self := by
  cases op with
  | GetAndUseOneEmptyZone => exact h.GetAndUseOneEmptyZone d none
  | CreateFileOnZone now file_name zone_id => exact h.CreateFileOnZone dev d now file_name zone_id
  | WriteFileOnZone file_name len buffer => exact h.WriteFileOnZone dev d file_name len buffer
  | CloseFileOnZone file_name => exact h.CloseFileOnZone d file_name
  | ReadFileOnZone file_name offset len => exact h.ReadFileOnZone dev d file_name offset len
  | DeleteFileOnZone now file_name => exact h.DeleteFileOnZone dev d now file_name

theorem PoolInv.runOps {D : Type} {n : Int} (dev : ZoneDevice D) (ops : List Op) :
    ∀ (sd : ZoneMapping × D), PoolInv n sd.1 → PoolInv n (leveldb.runOps dev ops sd).1 := by
  induction ops with
  | nil => intro sd h; exact h
  | cons op ops ih =>
    intro sd h
    exact ih _ (h.run dev sd.2 op)

theorem PoolInv.reach {D : Type} (dev : ZoneDevice D) (zone_num : Int) (uninit : Nat → Int)
    (d0 : D) (ops : List Op) : PoolInv zone_num (leveldb.reach dev zone_num uninit d0 ops).1 :=
  PoolInv.runOps dev ops _ (PoolInv.new zone_num uninit)

/-- C1 (pool partition invariant): in every state reachable from
`ZoneMapping(zns, zone_num)` by any sequence of calls, no key of
`empty_zones_` is a key of `used_zones_`, and the keys of the two maps
together are exactly the ids `0, ..., zone_num - 1`. -/
theorem pool_partition {D : Type} (dev : ZoneDevice D) (zone_num : Int) (uninit : Nat → Int)
    (d0 : D) (ops : List Op) :
    (∀ k : Int, k ∈ (reach dev zone_num uninit d0 ops).1.empty_zones_ →
        k ∉ (reach dev zone_num uninit d0 ops).1.used_zones_) ∧
    (∀ k : Int, (k ∈ (reach dev zone_num uninit d0 ops).1.empty_zones_ ∨
        k ∈ (reach dev zone_num uninit d0 ops).1.used_zones_) ↔ (0 ≤ k ∧ k < zone_num)) :=
  ⟨(PoolInv.reach dev zone_num uninit d0 ops).disj, (PoolInv.reach dev zone_num uninit d0 ops).cover⟩

/-! ## Occupancy and reclamation on concrete runs -/

/-- C2 (occupancy invariant), evaluated: after acquiring a zone, creating
"a" on it and writing 10 bytes, zone 0 is in `used_zones_` with
`valid_size = 10` although no resident file is closed (the closed lengths sum
to 0); after closing "a" its `valid_size` is 20 although the closed lengths
sum to 10. -/
theorem occupancy_counts_writes_twice :
    (0 : Int) ∈ afterWrite.1.used_zones_ ∧
    (zoneAt afterWrite.1.zone_list_ 0).valid_size = 10 ∧
    closedLength afterWrite.1 0 = 0 ∧
    (0 : Int) ∈ afterClose.1.used_zones_ ∧
    (zoneAt afterClose.1.zone_list_ 0).valid_size = 20 ∧
    closedLength afterClose.1 0 = 10 := by
  decide

/-- C3 (reclamation at last removal), evaluated on the end-to-end scenario:
with 2 zones, after acquiring zone 0, creating "a" on it, writing 100 bytes
and closing "a" the zone's `valid_size` is 200; deleting "a", the only file
of the zone, returns OK but leaves `valid_size = 100`, issues no device
call, keeps zone 0 in `used_zones_` and out of `empty_zones_`, and the
device write pointer stays at 100. -/
theorem last_delete_does_not_reclaim :
    endToEnd.1.used_zones_ = [0] ∧
    residentFiles endToEnd.1 0 = [⟨"a", 0, 0, 100, ZnsFileStat.kClosed, 1, 0⟩] ∧
    (zoneAt endToEnd.1.zone_list_ 0).valid_size = 200 ∧
    (DeleteFileOnZone wpDevice endToEnd.1 endToEnd.2 2 "a").status = Status.OK ∧
    (DeleteFileOnZone wpDevice endToEnd.1 endToEnd.2 2 "a").calls = [] ∧
    residentFiles (DeleteFileOnZone wpDevice endToEnd.1 endToEnd.2 2 "a").self 0 = [] ∧
    (zoneAt (DeleteFileOnZone wpDevice endToEnd.1 endToEnd.2 2 "a").self.zone_list_ 0).valid_size
      = 100 ∧
    (DeleteFileOnZone wpDevice endToEnd.1 endToEnd.2 2 "a").self.used_zones_ = [0] ∧
    (DeleteFileOnZone wpDevice endToEnd.1 endToEnd.2 2 "a").self.empty_zones_ = [1] ∧
    wpDevice.write_pointer (DeleteFileOnZone wpDevice endToEnd.1 endToEnd.2 2 "a").zns 0 = 100 := by
  decide

/-- C4 (no reclamation under a live file), evaluated: with "a" and "b"
created on zone 0 and nothing written, deleting "a" finds `valid_size = 0`,
resets zone 0 and moves it to `empty_zones_` while "b" is still `kCreated`
with `zone_id = 0` and still in the zone's `files_map`; afterwards writing,
reading and closing "b" each return Corruption, and the next
`GetAndUseOneEmptyZone` hands zone 0 out again. -/
theorem reclaimed_under_live_file :
    (DeleteFileOnZone wpDevice twoFiles.1 twoFiles.2 3 "a").status = Status.OK ∧
    (DeleteFileOnZone wpDevice twoFiles.1 twoFiles.2 3 "a").calls
      = [DevCall.ResetWritePointer 0] ∧
    findFile (DeleteFileOnZone wpDevice twoFiles.1 twoFiles.2 3 "a").self.files_map_ "b"
      = some ⟨"b", 0, 0, 0, ZnsFileStat.kCreated, 2, 0⟩ ∧
    (zoneAt (DeleteFileOnZone wpDevice twoFiles.1 twoFiles.2 3 "a").self.zone_list_ 0).files_map
      = ["b"] ∧
    (DeleteFileOnZone wpDevice twoFiles.1 twoFiles.2 3 "a").self.used_zones_ = [] ∧
    (DeleteFileOnZone wpDevice twoFiles.1 twoFiles.2 3 "a").self.empty_zones_ = [0] ∧
    (WriteFileOnZone wpDevice (DeleteFileOnZone wpDevice twoFiles.1 twoFiles.2 3 "a").self
      [0] "b" 1 [7]).status = Status.Corruption "invalid" ∧
    (ReadFileOnZone wpDevice (DeleteFileOnZone wpDevice twoFiles.1 twoFiles.2 3 "a").self
      [0] "b" 0 0).status = Status.Corruption "invalid" ∧
    (CloseFileOnZone (DeleteFileOnZone wpDevice twoFiles.1 twoFiles.2 3 "a").self
      [0] "b").status = Status.Corruption "invalid" ∧
    (GetAndUseOneEmptyZone (DeleteFileOnZone wpDevice twoFiles.1 twoFiles.2 3 "a").self
      [0] none).1.self.used_zones_ = [0] := by
  decide

/-- C5 (idempotent delete), evaluated: with "a" created on zone 0, the first
`DeleteFileOnZone("a")` returns OK and the second returns Corruption; the
second call leaves the mapping as the first one left it. -/
theorem second_delete_is_corruption :
    (DeleteFileOnZone wpDevice afterCreate.1 afterCreate.2 2 "a").status = Status.OK ∧
    (DeleteFileOnZone wpDevice (DeleteFileOnZone wpDevice afterCreate.1 afterCreate.2 2 "a").self
      (DeleteFileOnZone wpDevice afterCreate.1 afterCreate.2 2 "a").zns 3 "a").status
      = Status.Corruption "invalid" ∧
    (DeleteFileOnZone wpDevice (DeleteFileOnZone wpDevice afterCreate.1 afterCreate.2 2 "a").self
      (DeleteFileOnZone wpDevice afterCreate.1 afterCreate.2 2 "a").zns 3 "a").self
      = (DeleteFileOnZone wpDevice afterCreate.1 afterCreate.2 2 "a").self := by
  decide

/-- C6 (read clamping), evaluated: on a file of length 10 at offset 0 of
zone 0, a read with `offset = 5` and `len = 100` asks the device for 5 bytes
at offset 5, but a read with `offset = 5` and `len = 2^64 - 1` asks for
`2^64 - 1` bytes, not for `min len (10 - 5) = 5`: `offset+len` wraps to 4. -/
theorem read_clamp_wraps :
    findFile afterWrite.1.files_map_ "a" = some ⟨"a", 0, 0, 10, ZnsFileStat.kCreated, 1, 0⟩ ∧
    (ReadFileOnZone wpDevice afterWrite.1 afterWrite.2 "a" 5 100).calls
      = [DevCall.ZoneRead 0 ⟨0, 5, 5⟩] ∧
    (ReadFileOnZone wpDevice afterWrite.1 afterWrite.2 "a" 5 18446744073709551615).calls
      = [DevCall.ZoneRead 0 ⟨0, 5, 18446744073709551615⟩] ∧
    18446744073709551615 < SIZE_MOD ∧
    min 18446744073709551615 (10 - 5) = 5 := by
  decide

/-! ## Errors leave the mapping alone -/

/-- C7 (atomicity on error): whenever a call returns a status that is not
OK, a failed device write included, the mapping afterwards (pools, file
table and every zone record) is the mapping before the call. -/
theorem atomic_on_error {D : Type} (dev : ZoneDevice D) (s : ZoneMapping) (d : D) (op : Op)
    (h : (op.run dev s d).status.ok = false) : (op.run dev s d).self = s := by
  revert h
  cases op with
  | GetAndUseOneEmptyZone =>
    simp only [Op.run, leveldb.GetAndUseOneEmptyZone]
    split
    · intro _; rfl
    · intro h; simp [Status.ok, Status.OK] at h
  | CreateFileOnZone now file_name zone_id =>
    simp only [Op.run, leveldb.CreateFileOnZone]
    split_ifs
    · intro _; rfl
    · intro h; simp [Status.ok, Status.OK] at h
  | WriteFileOnZone file_name len buffer =>
    simp only [Op.run, leveldb.WriteFileOnZone]
    split
    · intro _; rfl
    · split_ifs
      all_goals first
        | (intro _; rfl)
        | (intro h; simp [Status.ok, Status.OK] at h)
  | CloseFileOnZone file_name =>
    simp only [Op.run, leveldb.CloseFileOnZone]
    split
    · intro _; rfl
    · split_ifs
      all_goals first
        | (intro _; rfl)
        | (intro h; simp [Status.ok, Status.OK] at h)
  | ReadFileOnZone file_name offset len =>
    simp only [Op.run, leveldb.ReadFileOnZone]
    split
    · intro _; rfl
    · split_ifs
      all_goals (intro _; rfl)
  | DeleteFileOnZone now file_name =>
    simp only [Op.run, leveldb.DeleteFileOnZone]
    split
    · intro _; rfl
    · split_ifs
      all_goals first
        | (intro _; rfl)
        | (intro h; simp [Status.ok, Status.OK] at h)

/-- A device write that fails on the live file "a" leaves the mapping as it
was. -/
theorem atomic_on_error_witness :
    (findFile afterCreate.1.files_map_ "a").isSome = true ∧
    ((Op.WriteFileOnZone "a" 10 []).run brokenDevice afterCreate.1 afterCreate.2).status
      = Status.IOError "device" ∧
    ((Op.WriteFileOnZone "a" 10 []).run brokenDevice afterCreate.1 afterCreate.2).self
      = afterCreate.1 :=
  ⟨by decide, by decide,
    atomic_on_error brokenDevice afterCreate.1 afterCreate.2 (Op.WriteFileOnZone "a" 10 [])
      (by decide)⟩

/-! ## The file table -/

theorem findFile_cons (m : List (String × ZnsFileInfo)) (name : String) (r : ZnsFileInfo)
    (x : String) :
    findFile ((name, r) :: m) x = if name = x then some r else findFile m x := by
  simp [findFile]

theorem findFile_updateFile (m : List (String × ZnsFileInfo)) (name : String)
    (f : ZnsFileInfo → ZnsFileInfo) (x : String) :
    findFile (updateFile m name f) x =
      if x = name then (findFile m x).map f else findFile m x := by
  induction m with
  | nil => simp [updateFile, findFile]
  | cons p m ih =>
    obtain ⟨k, v⟩ := p
    have ih2 : findFile (List.map (fun p => if p.1 = name then (p.1, f p.2) else p) m) x =
        if x = name then (findFile m x).map f else findFile m x := ih
    by_cases hx : x = name
    · subst hx
      by_cases hp : k = x
      · simp [updateFile, findFile, hp]
      · simp [updateFile, findFile, hp, ih2]
    · have hx2 : ¬ name = x := fun h => hx h.symm
      by_cases hp : k = name
      · subst hp
        simp [updateFile, findFile, hx, hx2, ih2]
      · by_cases hpx : k = x
        · subst hpx
          simp [updateFile, findFile, hx]
        · simp [updateFile, findFile, hp, hx, hpx, ih2]

theorem isSome_findFile_updateFile (m : List (String × ZnsFileInfo)) (name : String)
    (f : ZnsFileInfo → ZnsFileInfo) (x : String) :
    (findFile (updateFile m name f) x).isSome = (findFile m x).isSome := by
  rw [findFile_updateFile]
  split_ifs <;> simp

/-- A name that is a key of `files_map_` is still a key after any call. -/
theorem isSome_findFile_run {D : Type} (dev : ZoneDevice D) (s : ZoneMapping) (d : D) (op : Op)
    (x : String) (h : (findFile s.files_map_ x).isSome = true) :
    (findFile (op.run dev s d).self.files_map_ x).isSome = true := by
  cases op with
  | GetAndUseOneEmptyZone =>
    simp only [Op.run, leveldb.GetAndUseOneEmptyZone]
    split <;> exact h
  | CreateFileOnZone now file_name zone_id =>
    simp only [Op.run, leveldb.CreateFileOnZone]
    split_ifs
    · exact h
    · simp only [findFile_cons]
      split_ifs
      · rfl
      · exact h
  | WriteFileOnZone file_name len buffer =>
    simp only [Op.run, leveldb.WriteFileOnZone]
    split
    · exact h
    · split_ifs
      all_goals first
        | exact h
        | (simp only [isSome_findFile_updateFile]; exact h)
  | CloseFileOnZone file_name =>
    simp only [Op.run, leveldb.CloseFileOnZone]
    split
    · exact h
    · split_ifs
      all_goals first
        | exact h
        | (simp only [isSome_findFile_updateFile]; exact h)
  | ReadFileOnZone file_name offset len =>
    simp only [Op.run, leveldb.ReadFileOnZone]
    split
    · exact h
    · split_ifs <;> exact h
  | DeleteFileOnZone now file_name =>
    simp only [Op.run, leveldb.DeleteFileOnZone]
    split
    · exact h
    · split_ifs
      all_goals first
        | exact h
        | (simp only [isSome_findFile_updateFile]; exact h)

theorem isSome_findFile_runOps {D : Type} (dev : ZoneDevice D) (ops : List Op) (x : String) :
    ∀ sd : ZoneMapping × D, (findFile sd.1.files_map_ x).isSome = true →
      (findFile (runOps dev ops sd).1.files_map_ x).isSome = true := by
  induction ops with
  | nil => intro sd h; exact h
  | cons op ops ih =>
    intro sd h
    exact ih _ (isSome_findFile_run dev sd.1 sd.2 op x h)

/-! ## Creation -/

/-- C8 (create rejection), as stated, fails: `DeleteFileOnZone("a")` on a
mapping without a record for "a" returns OK, and the `CreateFileOnZone("a",
0)` that follows returns OK as well. -/
theorem create_after_delete_of_absent_name :
    findFile afterAcquire.1.files_map_ "a" = none ∧
    (DeleteFileOnZone wpDevice afterAcquire.1 afterAcquire.2 1 "a").status = Status.OK ∧
    (CreateFileOnZone wpDevice
      (DeleteFileOnZone wpDevice afterAcquire.1 afterAcquire.2 1 "a").self
      (DeleteFileOnZone wpDevice afterAcquire.1 afterAcquire.2 1 "a").zns 2 "a" 0).status
      = Status.OK := by
  decide

/-- C8 (create rejection), amended: `CreateFileOnZone(name, zone_id)` returns
a non-OK status exactly when `name` is a key of `files_map_` or `zone_id` is
not a key of `used_zones_`; and when `name` has a record, after a successful
`DeleteFileOnZone(name)` and any further calls, `CreateFileOnZone(name, z)`
returns InvalidArgument for every `z`. -/
theorem create_rejection {D : Type} (dev : ZoneDevice D) (s : ZoneMapping) (d : D) (now : Nat)
    (file_name : String) (zone_id : Int) :
    ((CreateFileOnZone dev s d now file_name zone_id).status.ok = false ↔
      ((findFile s.files_map_ file_name).isSome = true ∨ zone_id ∉ s.used_zones_)) ∧
    ((findFile s.files_map_ file_name).isSome = true →
      (DeleteFileOnZone dev s d now file_name).status = Status.OK →
      ∀ (ops : List Op) (later : Nat) (z : Int),
        (CreateFileOnZone dev
          (runOps dev ops ((DeleteFileOnZone dev s d now file_name).self,
            (DeleteFileOnZone dev s d now file_name).zns)).1
          (runOps dev ops ((DeleteFileOnZone dev s d now file_name).self,
            (DeleteFileOnZone dev s d now file_name).zns)).2 later file_name z).status
          = Status.InvalidArgument "invalid") := by
  constructor
  · unfold CreateFileOnZone
    split_ifs with hc
    · simp [Status.ok, Status.InvalidArgument, hc]
    · simp [Status.ok, Status.OK, hc]
  · intro hs _ ops later z
    have h1 := isSome_findFile_run dev s d (Op.DeleteFileOnZone now file_name) file_name hs
    have h2 := isSome_findFile_runOps dev ops file_name
      ((DeleteFileOnZone dev s d now file_name).self,
        (DeleteFileOnZone dev s d now file_name).zns) h1
    unfold CreateFileOnZone
    rw [if_pos (Or.inl h2)]

/-- The record of "a" blocks its re-creation after its deletion and a later
acquire attempt. -/
theorem create_rejection_witness :
    (findFile afterCreate.1.files_map_ "a").isSome = true ∧
    (DeleteFileOnZone wpDevice afterCreate.1 afterCreate.2 2 "a").status = Status.OK ∧
    (CreateFileOnZone wpDevice
      (runOps wpDevice [Op.GetAndUseOneEmptyZone]
        ((DeleteFileOnZone wpDevice afterCreate.1 afterCreate.2 2 "a").self,
          (DeleteFileOnZone wpDevice afterCreate.1 afterCreate.2 2 "a").zns)).1
      (runOps wpDevice [Op.GetAndUseOneEmptyZone]
        ((DeleteFileOnZone wpDevice afterCreate.1 afterCreate.2 2 "a").self,
          (DeleteFileOnZone wpDevice afterCreate.1 afterCreate.2 2 "a").zns)).2 3 "a" 0).status
      = Status.InvalidArgument "invalid" :=
  ⟨by decide, by decide,
    (create_rejection wpDevice afterCreate.1 afterCreate.2 2 "a" 0).2 (by decide) (by decide)
      [Op.GetAndUseOneEmptyZone] 3 0⟩

/-! ## Well-formed states and the create postcondition -/

theorem PoolInv.wellFormed {n : Int} {s : ZoneMapping} (h : PoolInv n s) : WellFormed s := by
  intro k hk
  have hr := (h.cover k).1 (List.mem_append.1 hk)
  refine ⟨hr.1, ?_, h.ids k hr.1 hr.2⟩
  rw [h.len]
  omega

/-- Every state reachable from construction is well formed. -/
theorem wellFormed_reach {D : Type} (dev : ZoneDevice D) (zone_num : Int) (uninit : Nat → Int)
    (d0 : D) (ops : List Op) : WellFormed (reach dev zone_num uninit d0 ops).1 :=
  (PoolInv.reach dev zone_num uninit d0 ops).wellFormed

theorem zoneAt_modifyZone_self (zl : List ZnsZoneInfo) (k : Int)
    (f : ZnsZoneInfo → ZnsZoneInfo) (hk : k.toNat < zl.length) :
    zoneAt (modifyZone zl k f) k = f (zoneAt zl k) := by
  rw [zoneAt_modifyZone, if_pos ⟨rfl, hk⟩]

theorem zoneAt_modifyZone_other (zl : List ZnsZoneInfo) (k j : Int)
    (f : ZnsZoneInfo → ZnsZoneInfo) (hk : 0 ≤ k) (hj : 0 ≤ j) (hjk : j ≠ k) :
    zoneAt (modifyZone zl k f) j = zoneAt zl j := by
  rw [zoneAt_modifyZone, if_neg]
  rintro ⟨h, _⟩
  apply hjk
  omega

/-- What `CreateFileOnZone` does once the zone's `zone_ptr` is assigned: on a
well-formed mapping, for a name without a record and a zone id in
`used_zones_`, it dereferences no unset pointer and returns OK after one
`ReportZone`; the new record of the name has the requested zone id, the
zone's device write pointer as offset, length 0 and status `kCreated`, and
is resident in that zone; the zone's `valid_file_num` is one larger, its
`valid_size` and its other resident names are as before; every other zone
record, every other file record and both pools are unchanged. -/
theorem create_with_handle {D : Type} (dev : ZoneDevice D) (s : ZoneMapping) (d : D)
    (now : Nat) (file_name : String) (zone_id : Int) (hwf : WellFormed s)
    (hname : findFile s.files_map_ file_name = none) (hzone : zone_id ∈ s.used_zones_)
    (hptr : (zoneAt s.zone_list_ zone_id).zone_ptr = ZonePtr.own) :
    (CreateFileOnZone dev s d now file_name zone_id).unset_deref = false ∧
    (CreateFileOnZone dev s d now file_name zone_id).status = Status.OK ∧
    (CreateFileOnZone dev s d now file_name zone_id).calls = [DevCall.ReportZone zone_id] ∧
    findFile (CreateFileOnZone dev s d now file_name zone_id).self.files_map_ file_name
      = some ⟨file_name, zone_id, dev.write_pointer d zone_id, 0, ZnsFileStat.kCreated, now, 0⟩ ∧
    (⟨file_name, zone_id, dev.write_pointer d zone_id, 0, ZnsFileStat.kCreated, now, 0⟩ :
        ZnsFileInfo) ∈ residentFiles (CreateFileOnZone dev s d now file_name zone_id).self zone_id ∧
    (zoneAt (CreateFileOnZone dev s d now file_name zone_id).self.zone_list_ zone_id).valid_file_num
      = (zoneAt s.zone_list_ zone_id).valid_file_num + 1 ∧
    (zoneAt (CreateFileOnZone dev s d now file_name zone_id).self.zone_list_ zone_id).valid_size
      = (zoneAt s.zone_list_ zone_id).valid_size ∧
    (zoneAt (CreateFileOnZone dev s d now file_name zone_id).self.zone_list_ zone_id).zone_id
      = zone_id ∧
    (∀ n : String, n ≠ file_name →
      (n ∈ (zoneAt (CreateFileOnZone dev s d now file_name zone_id).self.zone_list_
          zone_id).files_map ↔ n ∈ (zoneAt s.zone_list_ zone_id).files_map)) ∧
    (CreateFileOnZone dev s d now file_name zone_id).self.zone_list_.length
      = s.zone_list_.length ∧
    (∀ k : Int, 0 ≤ k → k ≠ zone_id →
      zoneAt (CreateFileOnZone dev s d now file_name zone_id).self.zone_list_ k
        = zoneAt s.zone_list_ k) ∧
    (∀ n : String, n ≠ file_name →
      findFile (CreateFileOnZone dev s d now file_name zone_id).self.files_map_ n
        = findFile s.files_map_ n) ∧
    (CreateFileOnZone dev s d now file_name zone_id).self.empty_zones_ = s.empty_zones_ ∧
    (CreateFileOnZone dev s d now file_name zone_id).self.used_zones_ = s.used_zones_ ∧
    (CreateFileOnZone dev s d now file_name zone_id).self.zone_num_ = s.zone_num_ ∧
    (CreateFileOnZone dev s d now file_name zone_id).zns = d := by
  obtain ⟨h0, hlt, hid⟩ := hwf zone_id (List.mem_append.2 (Or.inr hzone))
  have hc : ¬ ((findFile s.files_map_ file_name).isSome = true ∨ zone_id ∉ s.used_zones_) := by
    simp [hname, hzone]
  have hz : zoneAt (modifyZone (modifyZone s.zone_list_ zone_id
        (fun z => { z with valid_file_num := z.valid_file_num + 1 })) zone_id
        (fun z => { z with files_map := namesInsert file_name z.files_map })) zone_id
      = { zoneAt s.zone_list_ zone_id with
          valid_file_num := (zoneAt s.zone_list_ zone_id).valid_file_num + 1
          files_map := namesInsert file_name (zoneAt s.zone_list_ zone_id).files_map } := by
    rw [zoneAt_modifyZone_self _ _ _ (by rw [length_modifyZone]; exact hlt),
      zoneAt_modifyZone_self _ _ _ hlt]
  unfold CreateFileOnZone
  rw [if_neg hc]
  dsimp only [ZoneDevice.ReportZone]
  rw [hz]
  refine ⟨by simp [ptrUnset, hptr], rfl, rfl, ?_, ?_, rfl, rfl, hid, ?_, ?_, ?_, ?_, rfl, rfl,
    rfl, rfl⟩
  · simp [findFile]
  · unfold residentFiles
    rw [hz]
    refine List.mem_filterMap.2 ⟨file_name, ?_, by simp [findFile]⟩
    unfold namesInsert
    split_ifs with hm
    · exact hm
    · exact List.mem_cons_self _ _
  · intro n hn
    unfold namesInsert
    split_ifs with hm
    · rfl
    · simp [hn]
  · simp [length_modifyZone]
  · intro k hk hkz
    rw [zoneAt_modifyZone_other _ _ _ _ h0 hk hkz, zoneAt_modifyZone_other _ _ _ _ h0 hk hkz]
  · intro n hn
    rw [findFile_cons, if_neg (fun h => hn h.symm)]

/-! ## The unset zone pointer -/

theorem zone_ptr_modifyZone (zl : List ZnsZoneInfo) (k j : Int) (f : ZnsZoneInfo → ZnsZoneInfo)
    (hf : ∀ z, (f z).zone_ptr = z.zone_ptr) :
    (zoneAt (modifyZone zl k f) j).zone_ptr = (zoneAt zl j).zone_ptr := by
  rw [zoneAt_modifyZone]
  split_ifs
  · exact hf _
  · rfl

theorem allUnset_new (zone_num : Int) (uninit : Nat → Int) :
    AllUnset (ZoneMapping.new zone_num uninit) := by
  intro k
  rcases Nat.lt_or_ge k.toNat zone_num.toNat with hlt | hge
  · simp [ZoneMapping.new, zoneAt, List.getD_eq_getElem?_getD, List.getElem?_map,
      List.getElem?_range hlt]
  · have hnone : (List.range zone_num.toNat)[k.toNat]? = none :=
      List.getElem?_eq_none (by simpa using hge)
    simp [ZoneMapping.new, zoneAt, List.getD_eq_getElem?_getD, List.getElem?_map, hnone]
    rfl

theorem allUnset_run {D : Type} {s : ZoneMapping} (h : AllUnset s) (dev : ZoneDevice D) (d : D)
    (op : Op) : AllUnset (op.run dev s d).self := by
  cases op with
  | GetAndUseOneEmptyZone =>
    simp only [Op.run, leveldb.GetAndUseOneEmptyZone]
    split <;> exact h
  | CreateFileOnZone now file_name zone_id =>
    simp only [Op.run, leveldb.CreateFileOnZone]
    split_ifs
    · exact h
    · intro j
      dsimp only
      rw [zone_ptr_modifyZone _ _ _ _ (by intro _; rfl),
        zone_ptr_modifyZone _ _ _ _ (by intro _; rfl)]
      exact h j
  | WriteFileOnZone file_name len buffer =>
    simp only [Op.run, leveldb.WriteFileOnZone]
    split
    · exact h
    · split_ifs
      all_goals first
        | exact h
        | (intro j
           dsimp only
           rw [zone_ptr_modifyZone _ _ _ _ (by intro _; rfl)]
           exact h j)
  | CloseFileOnZone file_name =>
    simp only [Op.run, leveldb.CloseFileOnZone]
    split
    · exact h
    · split_ifs
      all_goals first
        | exact h
        | (intro j
           dsimp only
           rw [zone_ptr_modifyZone _ _ _ _ (by intro _; rfl)]
           exact h j)
  | ReadFileOnZone file_name offset len =>
    simp only [Op.run, leveldb.ReadFileOnZone]
    split
    · exact h
    · split_ifs <;> exact h
  | DeleteFileOnZone now file_name =>
    simp only [Op.run, leveldb.DeleteFileOnZone]
    split
    · exact h
    · split_ifs
      all_goals first
        | exact h
        | (intro j
           dsimp only
           rw [zone_ptr_modifyZone _ _ _ _ (by intro _; rfl)]
           exact h j)

theorem allUnset_runOps {D : Type} (dev : ZoneDevice D) (ops : List Op) :
    ∀ sd : ZoneMapping × D, AllUnset sd.1 → AllUnset (runOps dev ops sd).1 := by
  induction ops with
  | nil => intro sd h; exact h
  | cons op ops ih => intro sd h; exact ih _ (allUnset_run h dev sd.2 op)

/-- No state reachable from the constructor has a `zone_ptr` assigned. -/
theorem allUnset_reach {D : Type} (dev : ZoneDevice D) (zone_num : Int) (uninit : Nat → Int)
    (d0 : D) (ops : List Op) : AllUnset (reach dev zone_num uninit d0 ops).1 :=
  allUnset_runOps dev ops _ (allUnset_new zone_num uninit)

/-- In every state reachable from the constructor, a `CreateFileOnZone` that
passes its guard dereferences an unset `zone_ptr`. -/
theorem create_unset_deref_reach {D : Type} (dev : ZoneDevice D) (zone_num : Int)
    (uninit : Nat → Int) (d0 : D) (ops : List Op) (now : Nat) (file_name : String)
    (zone_id : Int)
    (hname : findFile (reach dev zone_num uninit d0 ops).1.files_map_ file_name = none)
    (hzone : zone_id ∈ (reach dev zone_num uninit d0 ops).1.used_zones_) :
    (CreateFileOnZone dev (reach dev zone_num uninit d0 ops).1
      (reach dev zone_num uninit d0 ops).2 now file_name zone_id).unset_deref = true := by
  have hu := allUnset_reach dev zone_num uninit d0 ops zone_id
  unfold CreateFileOnZone
  simp [hname, hzone, ptrUnset, hu]

/-- C9 (create postcondition), evaluated: the constructor leaves every
`zone_ptr` unset, so after `ZoneMapping(zns, 1)` and
`GetAndUseOneEmptyZone` zone 0 is in `used_zones_` with its `zone_ptr`
unset; `CreateFileOnZone("a", 0)`, for a name without a record, passes the
guard and dereferences that pointer: the call has undefined behaviour where
the claim has it return OK. -/
theorem create_dereferences_unset_zone_ptr :
    (zoneAt (ZoneMapping.new 1 (fun _ => 0)).zone_list_ 0).zone_ptr = ZonePtr.unset ∧
    findFile afterAcquire.1.files_map_ "a" = none ∧
    (0 : Int) ∈ afterAcquire.1.used_zones_ ∧
    (zoneAt afterAcquire.1.zone_list_ 0).zone_ptr = ZonePtr.unset ∧
    (CreateFileOnZone wpDevice afterAcquire.1 afterAcquire.2 1 "a" 0).unset_deref = true := by
  decide

/-! ## Deleted and absent names -/

/-- C10 (lifecycle rejection): in every state, for a name whose record has
status `kDeleted`, `WriteFileOnZone`, `ReadFileOnZone` and `CloseFileOnZone`
each return a non-OK status, invoke no device primitive and leave the
mapping unchanged, and `IsFileInZone` is false; for a name with no record
the three calls return a non-OK status as well and `IsFileInZone` is
false. -/
theorem lifecycle_rejection {D : Type} (dev : ZoneDevice D) (s : ZoneMapping) (d : D)
    (file_name : String) (len offset rlen : Nat) (buffer : List Nat) :
    (∀ f : ZnsFileInfo, findFile s.files_map_ file_name = some f →
      f.f_stat = ZnsFileStat.kDeleted →
      (WriteFileOnZone dev s d file_name len buffer).status.ok = false ∧
      (WriteFileOnZone dev s d file_name len buffer).calls = [] ∧
      (WriteFileOnZone dev s d file_name len buffer).self = s ∧
      (ReadFileOnZone dev s d file_name offset rlen).status.ok = false ∧
      (ReadFileOnZone dev s d file_name offset rlen).calls = [] ∧
      (ReadFileOnZone dev s d file_name offset rlen).self = s ∧
      (CloseFileOnZone s d file_name).status.ok = false ∧
      (CloseFileOnZone s d file_name).calls = [] ∧
      (CloseFileOnZone s d file_name).self = s ∧
      IsFileInZone s file_name = false) ∧
    (findFile s.files_map_ file_name = none →
      (WriteFileOnZone dev s d file_name len buffer).status.ok = false ∧
      (WriteFileOnZone dev s d file_name len buffer).calls = [] ∧
      (ReadFileOnZone dev s d file_name offset rlen).status.ok = false ∧
      (ReadFileOnZone dev s d file_name offset rlen).calls = [] ∧
      (CloseFileOnZone s d file_name).status.ok = false ∧
      (CloseFileOnZone s d file_name).calls = [] ∧
      IsFileInZone s file_name = false) := by
  constructor
  · intro f hf hdel
    simp [WriteFileOnZone, ReadFileOnZone, CloseFileOnZone, IsFileInZone, hf, hdel, Status.ok,
      Status.InvalidArgument]
  · intro hf
    simp [WriteFileOnZone, ReadFileOnZone, CloseFileOnZone, IsFileInZone, hf, Status.ok,
      Status.InvalidArgument]

/-- The deleted name "a" and the unknown name "zz" on the mapping left by
deleting "a". -/
theorem lifecycle_rejection_witness :
    findFile afterDelete.1.files_map_ "a" = some ⟨"a", -1, 0, 0, ZnsFileStat.kDeleted, 1, 2⟩ ∧
    (WriteFileOnZone wpDevice afterDelete.1 afterDelete.2 "a" 1 [7]).status.ok = false ∧
    IsFileInZone afterDelete.1 "a" = false ∧
    findFile afterDelete.1.files_map_ "zz" = none ∧
    (WriteFileOnZone wpDevice afterDelete.1 afterDelete.2 "zz" 1 [7]).status.ok = false :=
  ⟨by decide,
    ((lifecycle_rejection wpDevice afterDelete.1 afterDelete.2 "a" 1 0 1 [7]).1
      ⟨"a", -1, 0, 0, ZnsFileStat.kDeleted, 1, 2⟩ (by decide) (by decide)).1,
    ((lifecycle_rejection wpDevice afterDelete.1 afterDelete.2 "a" 1 0 1 [7]).1
      ⟨"a", -1, 0, 0, ZnsFileStat.kDeleted, 1, 2⟩ (by decide) (by decide)).2.2.2.2.2.2.2.2.2,
    by decide,
    ((lifecycle_rejection wpDevice afterDelete.1 afterDelete.2 "zz" 1 0 1 [7]).2
      (by decide)).1⟩

/-! ## Acquiring zones -/

/-- C11 (acquire postcondition), evaluated: on a fresh one-zone manager
`GetAndUseOneEmptyZone` returns OK and moves zone 0 from `empty_zones_` to
`used_zones_`, but the caller's output argument holds after the call what it
held before (nothing, or the stale value 7): the zone is not handed back. -/
theorem acquire_leaves_output_argument :
    (ZoneMapping.new 1 (fun _ => 0)).empty_zones_ = [0] ∧
    (GetAndUseOneEmptyZone (ZoneMapping.new 1 (fun _ => 0)) ([0] : List Nat) none).1.status
      = Status.OK ∧
    (GetAndUseOneEmptyZone (ZoneMapping.new 1 (fun _ => 0)) ([0] : List Nat)
      none).1.self.used_zones_ = [0] ∧
    (GetAndUseOneEmptyZone (ZoneMapping.new 1 (fun _ => 0)) ([0] : List Nat)
      none).1.self.empty_zones_ = [] ∧
    (GetAndUseOneEmptyZone (ZoneMapping.new 1 (fun _ => 0)) ([0] : List Nat) none).2 = none ∧
    (GetAndUseOneEmptyZone (ZoneMapping.new 1 (fun _ => 0)) ([0] : List Nat) (some 7)).2
      = some 7 := by
  decide

theorem mapInsert_append (k : Int) (l : List Int) (h : ∀ x ∈ l, x < k) :
    mapInsert k l = l ++ [k] := by
  induction l with
  | nil => rfl
  | cons b l ih =>
    have hb : b < k := h b (List.mem_cons_self _ _)
    unfold mapInsert
    rw [if_neg (by omega), if_neg (by omega), ih (fun x hx => h x (List.mem_cons_of_mem _ hx))]
    rfl

theorem foldl_mapInsert_range (n : Nat) :
    (List.range n).foldl (fun m (i : Nat) => mapInsert (i : Int) m) []
      = (List.range n).map (fun (i : Nat) => (i : Int)) := by
  induction n with
  | zero => rfl
  | succ n ih =>
    rw [List.range_succ, List.foldl_append, ih, List.map_append]
    simp only [List.foldl_cons, List.foldl_nil, List.map_cons, List.map_nil]
    apply mapInsert_append
    intro x hx
    obtain ⟨i, hi, rfl⟩ := List.mem_map.1 hx
    have := List.mem_range.1 hi
    omega

theorem length_empty_zones_new (zone_num : Int) (uninit : Nat → Int) :
    (ZoneMapping.new zone_num uninit).empty_zones_.length = zone_num.toNat := by
  simp [ZoneMapping.new, foldl_mapInsert_range]

theorem mapErase_head (k : Int) (l : List Int) (h : (k :: l).Pairwise (fun a b => a < b)) :
    mapErase k (k :: l) = l := by
  rw [List.pairwise_cons] at h
  unfold mapErase
  rw [List.filter_cons_of_neg (by simp)]
  apply List.filter_eq_self.2
  intro x hx
  have := h.1 x hx
  simp only [ne_eq, decide_eq_true_eq]
  omega

/-- A call other than a delete shortens `empty_zones_` by one if it is an
acquire on a non-empty pool and leaves it alone otherwise. -/
theorem length_empty_zones_run {D : Type} {n : Int} {s : ZoneMapping} (h : PoolInv n s)
    (dev : ZoneDevice D) (d : D) (op : Op) (hop : op.isDelete = false) :
    (op.run dev s d).self.empty_zones_.length
      = s.empty_zones_.length - (if op.isAcquire = true then 1 else 0) := by
  cases op with
  | GetAndUseOneEmptyZone =>
    simp only [Op.run, leveldb.GetAndUseOneEmptyZone, Op.isAcquire, if_true]
    split
    · next he => simp [he]
    · next tmp rest he =>
      have hmem : tmp ∈ s.empty_zones_ := by rw [he]; simp
      have hr := (h.cover tmp).1 (Or.inl hmem)
      have hs := h.sortedE
      rw [he] at hs
      simp only [h.ids tmp hr.1 hr.2, he, mapErase_head tmp rest hs, List.length_cons]
      omega
  | CreateFileOnZone now file_name zone_id =>
    simp only [Op.run, leveldb.CreateFileOnZone, Op.isAcquire]
    split_ifs <;> first | contradiction | simp
  | WriteFileOnZone file_name len buffer =>
    simp only [Op.run, leveldb.WriteFileOnZone, Op.isAcquire]
    split
    · simp
    · split_ifs <;> first | contradiction | simp
  | CloseFileOnZone file_name =>
    simp only [Op.run, leveldb.CloseFileOnZone, Op.isAcquire]
    split
    · simp
    · split_ifs <;> first | contradiction | simp
  | ReadFileOnZone file_name offset len =>
    simp only [Op.run, leveldb.ReadFileOnZone, Op.isAcquire]
    split
    · simp
    · split_ifs <;> first | contradiction | simp
  | DeleteFileOnZone now file_name => simp [Op.isDelete] at hop

theorem length_empty_zones_runOps {D : Type} {n : Int} (dev : ZoneDevice D) (ops : List Op) :
    ∀ sd : ZoneMapping × D, PoolInv n sd.1 → (∀ op ∈ ops, op.isDelete = false) →
      (runOps dev ops sd).1.empty_zones_.length
        = sd.1.empty_zones_.length - acquireCount ops := by
  induction ops with
  | nil => intro sd _ _; simp [runOps, acquireCount]
  | cons op ops ih =>
    intro sd h hops
    have h1 := length_empty_zones_run h dev sd.2 op (hops op (List.mem_cons_self _ _))
    have h2 := ih ((op.run dev sd.1 sd.2).self, (op.run dev sd.1 sd.2).zns) (h.run dev sd.2 op)
      (fun o ho => hops o (List.mem_cons_of_mem _ ho))
    simp only [runOps]
    rw [h2]
    simp only [] at h1
    rw [h1]
    unfold acquireCount
    rw [List.countP_cons]
    split_ifs <;> omega

/-- C12 (exhaustion): `GetAndUseOneEmptyZone` returns a non-OK status exactly
when `empty_zones_` is empty; and on a manager constructed with `zone_num`
zones, after any calls none of which is a delete, the next
`GetAndUseOneEmptyZone` returns OK exactly when fewer than `zone_num`
acquire calls were made before it (so calls 1 to n succeed and call n+1
fails). -/
theorem exhaustion {D : Type} (dev : ZoneDevice D) (s : ZoneMapping) (d : D) (p : Option Int)
    (zone_num : Int) (uninit : Nat → Int) (d0 : D) (ops : List Op) :
    ((GetAndUseOneEmptyZone s d p).1.status.ok = false ↔ s.empty_zones_ = []) ∧
    ((∀ op ∈ ops, op.isDelete = false) →
      ((GetAndUseOneEmptyZone (reach dev zone_num uninit d0 ops).1
          (reach dev zone_num uninit d0 ops).2 p).1.status.ok = true ↔
        (acquireCount ops : Int) < zone_num)) := by
  have key : ∀ (t : ZoneMapping) (e : D),
      ((GetAndUseOneEmptyZone t e p).1.status.ok = false ↔ t.empty_zones_ = []) := by
    intro t e
    unfold GetAndUseOneEmptyZone
    split
    · next he => simp [he, Status.ok, Status.NotFound]
    · next tmp rest he => simp [he, Status.ok, Status.OK]
  refine ⟨key s d, fun hops => ?_⟩
  have hlen := length_empty_zones_runOps dev ops (ZoneMapping.new zone_num uninit, d0)
    (PoolInv.new zone_num uninit) hops
  simp only [length_empty_zones_new] at hlen
  have hk := key (reach dev zone_num uninit d0 ops).1 (reach dev zone_num uninit d0 ops).2
  have hl : (reach dev zone_num uninit d0 ops).1.empty_zones_.length
      = zone_num.toNat - acquireCount ops := hlen
  constructor
  · intro hok
    have hne : (reach dev zone_num uninit d0 ops).1.empty_zones_ ≠ [] := by
      intro he
      rw [hk.2 he] at hok
      exact Bool.false_ne_true hok
    have := List.length_pos.2 hne
    omega
  · intro hc
    have hne : (reach dev zone_num uninit d0 ops).1.empty_zones_ ≠ [] := by
      apply List.length_pos.1
      omega
    cases hb : (GetAndUseOneEmptyZone (reach dev zone_num uninit d0 ops).1
        (reach dev zone_num uninit d0 ops).2 p).1.status.ok with
    | true => rfl
    | false => exact absurd (hk.1 hb) hne

/-- Two zones: the third acquire in a row fails, the second succeeds. -/
theorem exhaustion_witness :
    (GetAndUseOneEmptyZone
      (reach wpDevice 2 (fun _ => 0) [0, 0] [Op.GetAndUseOneEmptyZone]).1
      (reach wpDevice 2 (fun _ => 0) [0, 0] [Op.GetAndUseOneEmptyZone]).2 none).1.status.ok
      = true ∧
    ¬ (GetAndUseOneEmptyZone
      (reach wpDevice 2 (fun _ => 0) [0, 0] [Op.GetAndUseOneEmptyZone, Op.GetAndUseOneEmptyZone]).1
      (reach wpDevice 2 (fun _ => 0) [0, 0]
        [Op.GetAndUseOneEmptyZone, Op.GetAndUseOneEmptyZone]).2 none).1.status.ok = true :=
  ⟨((exhaustion wpDevice afterAcquire.1 afterAcquire.2 none 2 (fun _ => 0) [0, 0]
      [Op.GetAndUseOneEmptyZone]).2 (by decide)).2 (by decide),
    fun h => absurd (((exhaustion wpDevice afterAcquire.1 afterAcquire.2 none 2 (fun _ => 0)
      [0, 0] [Op.GetAndUseOneEmptyZone, Op.GetAndUseOneEmptyZone]).2 (by decide)).1 h)
      (by decide)⟩

/-! ## Empty zones hold no valid bytes -/

theorem emptyZero_new (zone_num : Int) (uninit : Nat → Int) :
    EmptyZero (ZoneMapping.new zone_num uninit) := by
  intro k hk
  have hr := ((PoolInv.new zone_num uninit).cover k).1 (Or.inl hk)
  have hlt : k.toNat < zone_num.toNat := by omega
  simp [ZoneMapping.new, zoneAt, List.getD_eq_getElem?_getD, List.getElem?_map,
    List.getElem?_range hlt]

/-- A zone of `empty_zones_` is not touched by an assignment through a
pointer of `used_zones_`. -/
theorem zoneAt_modifyZone_of_empty {n : Int} {s : ZoneMapping} (h : PoolInv n s) (j k : Int)
    (f : ZnsZoneInfo → ZnsZoneInfo) (hj : j ∈ s.used_zones_) (hk : k ∈ s.empty_zones_) :
    zoneAt (modifyZone s.zone_list_ j f) k = zoneAt s.zone_list_ k := by
  have hj0 := ((h.cover j).1 (Or.inr hj)).1
  have hk0 := ((h.cover k).1 (Or.inl hk)).1
  have hne : k ≠ j := fun e => h.disj k hk (e ▸ hj)
  exact zoneAt_modifyZone_other _ _ _ _ hj0 hk0 hne

theorem emptyZero_run {D : Type} {n : Int} {s : ZoneMapping} (h : PoolInv n s)
    (hz : EmptyZero s) (dev : ZoneDevice D) (d : D) (op : Op) :
    EmptyZero (op.run dev s d).self := by
  cases op with
  | GetAndUseOneEmptyZone =>
    simp only [Op.run, leveldb.GetAndUseOneEmptyZone]
    split
    · exact hz
    · intro k hk
      exact hz k ((mem_mapErase _ _ _).1 hk).1
  | CreateFileOnZone now file_name zone_id =>
    simp only [Op.run, leveldb.CreateFileOnZone]
    split_ifs with hc
    · exact hz
    · have hu : zone_id ∈ s.used_zones_ := by
        by_contra hn
        exact hc (Or.inr hn)
      intro k hk
      have hk0 := ((h.cover k).1 (Or.inl hk)).1
      have hj0 := ((h.cover zone_id).1 (Or.inr hu)).1
      have hne : k ≠ zone_id := fun e => h.disj k hk (e ▸ hu)
      dsimp only
      rw [zoneAt_modifyZone_other _ _ _ _ hj0 hk0 hne,
        zoneAt_modifyZone_other _ _ _ _ hj0 hk0 hne]
      exact hz k hk
  | WriteFileOnZone file_name len buffer =>
    simp only [Op.run, leveldb.WriteFileOnZone]
    split
    · exact hz
    · next found hf =>
      by_cases hu : found.zone_id ∈ s.used_zones_
      · split_ifs
        all_goals first
          | exact hz
          | (intro k hk
             dsimp only
             rw [zoneAt_modifyZone_of_empty h _ _ _ hu hk]
             exact hz k hk)
      · split_ifs <;> exact hz
  | CloseFileOnZone file_name =>
    simp only [Op.run, leveldb.CloseFileOnZone]
    split
    · exact hz
    · next found hf =>
      by_cases hu : found.zone_id ∈ s.used_zones_
      · split_ifs
        all_goals first
          | exact hz
          | (intro k hk
             dsimp only
             rw [zoneAt_modifyZone_of_empty h _ _ _ hu hk]
             exact hz k hk)
      · split_ifs <;> exact hz
  | ReadFileOnZone file_name offset len =>
    simp only [Op.run, leveldb.ReadFileOnZone]
    split
    · exact hz
    · split_ifs <;> exact hz
  | DeleteFileOnZone now file_name =>
    simp only [Op.run, leveldb.DeleteFileOnZone]
    split
    · exact hz
    · next found hf =>
      by_cases hu : found.zone_id ∈ s.used_zones_
      · simp only [hu, not_true_eq_false, if_false]
        have hr := (h.cover found.zone_id).1 (Or.inr hu)
        have hid : (zoneAt (modifyZone s.zone_list_ found.zone_id (fun z =>
            { z with valid_size := z.valid_size - (found.length : Int)
                     valid_file_num := z.valid_file_num - 1
                     files_map := namesErase file_name z.files_map })) found.zone_id).zone_id
              = found.zone_id := by
          rw [zone_id_modifyZone _ _ _ _ (by intro _; rfl)]
          exact h.ids _ hr.1 hr.2
        split_ifs with hv
        · intro k hk
          simp only [hid] at hk
          rcases (mem_mapInsert _ _ _).1 hk with rfl | hk
          · exact hv
          · dsimp only
            rw [zoneAt_modifyZone_of_empty h _ _ _ hu hk]
            exact hz k hk
        · intro k hk
          dsimp only
          rw [zoneAt_modifyZone_of_empty h _ _ _ hu hk]
          exact hz k hk
      · simp only [hu, not_false_eq_true, if_true]
        exact hz

theorem emptyZero_runOps {D : Type} {n : Int} (dev : ZoneDevice D) (ops : List Op) :
    ∀ sd : ZoneMapping × D, PoolInv n sd.1 → EmptyZero sd.1 →
      EmptyZero (runOps dev ops sd).1 := by
  induction ops with
  | nil => intro sd _ hz; exact hz
  | cons op ops ih =>
    intro sd h hz
    exact ih _ (h.run dev sd.2 op) (emptyZero_run h hz dev sd.2 op)

/-- C13 (no premature reclamation): in every state reachable from
construction, every zone in `empty_zones_` has `valid_size = 0`. -/
theorem no_premature_reclamation {D : Type} (dev : ZoneDevice D) (zone_num : Int)
    (uninit : Nat → Int) (d0 : D) (ops : List Op) (k : Int)
    (hk : k ∈ (reach dev zone_num uninit d0 ops).1.empty_zones_) :
    (zoneAt (reach dev zone_num uninit d0 ops).1.zone_list_ k).valid_size = 0 :=
  emptyZero_runOps dev ops _ (PoolInv.new zone_num uninit) (emptyZero_new zone_num uninit) k hk

/-- After the end-to-end calls on two zones, zone 1 is still empty and holds
no valid bytes. -/
theorem no_premature_reclamation_witness :
    (1 : Int) ∈ endToEnd.1.empty_zones_ ∧ (zoneAt endToEnd.1.zone_list_ 1).valid_size = 0 :=
  ⟨by decide,
    no_premature_reclamation wpDevice 2 (fun _ => 0) [0, 0]
      [Op.GetAndUseOneEmptyZone, Op.CreateFileOnZone 1 "a" 0,
        Op.WriteFileOnZone "a" 100 (List.replicate 100 0), Op.CloseFileOnZone "a"] 1
      (by decide)⟩

/-! ## Deleting and writing: postconditions -/

/-- C14 (reclamation trigger): on a well-formed mapping (every reachable
one is), for a name whose record is present with its zone in `used_zones_`,
`DeleteFileOnZone` leaves the zone with `valid_size` reduced by the file's
length; if that is 0, exactly one `ResetWritePointer` is issued, on that
zone's handle, and the zone is moved from `used_zones_` to `empty_zones_`
(no other zone changes pool); if it is not 0, no device call is issued and
both pools are unchanged. -/
theorem reclamation_trigger {D : Type} (dev : ZoneDevice D) (s : ZoneMapping) (d : D)
    (now : Nat) (file_name : String) (f : ZnsFileInfo) (hwf : WellFormed s)
    (hf : findFile s.files_map_ file_name = some f) (hzone : f.zone_id ∈ s.used_zones_) :
    (zoneAt (DeleteFileOnZone dev s d now file_name).self.zone_list_ f.zone_id).valid_size
      = (zoneAt s.zone_list_ f.zone_id).valid_size - (f.length : Int) ∧
    ((zoneAt s.zone_list_ f.zone_id).valid_size - (f.length : Int) = 0 →
      (DeleteFileOnZone dev s d now file_name).calls = [DevCall.ResetWritePointer f.zone_id] ∧
      (DeleteFileOnZone dev s d now file_name).zns = (dev.ResetWritePointer d f.zone_id).2 ∧
      f.zone_id ∈ (DeleteFileOnZone dev s d now file_name).self.empty_zones_ ∧
      f.zone_id ∉ (DeleteFileOnZone dev s d now file_name).self.used_zones_ ∧
      (∀ k : Int, k ≠ f.zone_id →
        ((k ∈ (DeleteFileOnZone dev s d now file_name).self.empty_zones_ ↔ k ∈ s.empty_zones_) ∧
          (k ∈ (DeleteFileOnZone dev s d now file_name).self.used_zones_ ↔
            k ∈ s.used_zones_)))) ∧
    ((zoneAt s.zone_list_ f.zone_id).valid_size - (f.length : Int) ≠ 0 →
      (DeleteFileOnZone dev s d now file_name).calls = [] ∧
      (DeleteFileOnZone dev s d now file_name).zns = d ∧
      (DeleteFileOnZone dev s d now file_name).self.empty_zones_ = s.empty_zones_ ∧
      (DeleteFileOnZone dev s d now file_name).self.used_zones_ = s.used_zones_) := by
  obtain ⟨_, hlt, hid⟩ := hwf f.zone_id (List.mem_append.2 (Or.inr hzone))
  have hz : zoneAt (modifyZone s.zone_list_ f.zone_id (fun z =>
        { z with valid_size := z.valid_size - (f.length : Int)
                 valid_file_num := z.valid_file_num - 1
                 files_map := namesErase file_name z.files_map })) f.zone_id
      = { zoneAt s.zone_list_ f.zone_id with
          valid_size := (zoneAt s.zone_list_ f.zone_id).valid_size - (f.length : Int)
          valid_file_num := (zoneAt s.zone_list_ f.zone_id).valid_file_num - 1
          files_map := namesErase file_name (zoneAt s.zone_list_ f.zone_id).files_map } :=
    zoneAt_modifyZone_self _ _ _ hlt
  unfold DeleteFileOnZone
  simp only [hf, hzone, not_true_eq_false, if_false, hz, hid]
  by_cases hv : (zoneAt s.zone_list_ f.zone_id).valid_size - (f.length : Int) = 0
  · simp only [hv, if_true, hz, true_and, ne_eq, not_true_eq_false, false_imp_iff,
      forall_true_left, and_true]
    refine ⟨(mem_mapInsert _ _ _).2 (Or.inl rfl), fun hm => ?_, fun k hk => ?_⟩
    · exact ((mem_mapErase _ _ _).1 hm).2 rfl
    · simp [mem_mapInsert, mem_mapErase, hk]
  · simp [hv, hz]

/-- Deleting "a", created on zone 0 and never written, reclaims zone 0 with
one reset. -/
theorem reclamation_trigger_witness :
    WellFormed afterCreate.1 ∧
    (DeleteFileOnZone wpDevice afterCreate.1 afterCreate.2 2 "a").calls
      = [DevCall.ResetWritePointer 0] ∧
    (0 : Int) ∈ (DeleteFileOnZone wpDevice afterCreate.1 afterCreate.2 2 "a").self.empty_zones_ :=
  ⟨by decide,
    ((reclamation_trigger wpDevice afterCreate.1 afterCreate.2 2 "a"
      ⟨"a", 0, 0, 0, ZnsFileStat.kCreated, 1, 0⟩ (by decide) (by decide) (by decide)).2.1
      (by decide)).1,
    ((reclamation_trigger wpDevice afterCreate.1 afterCreate.2 2 "a"
      ⟨"a", 0, 0, 0, ZnsFileStat.kCreated, 1, 0⟩ (by decide) (by decide) (by decide)).2.1
      (by decide)).2.2.1⟩

/-- One call takes the status of a record along `kCreated -> kClosed`,
`kCreated -> kDeleted` or `kClosed -> kDeleted`, or leaves it as it is; the
record stays in `files_map_`. -/
theorem status_step {D : Type} (dev : ZoneDevice D) (s : ZoneMapping) (d : D) (op : Op)
    (name : String) (f : ZnsFileInfo) (hf : findFile s.files_map_ name = some f) :
    ∃ g : ZnsFileInfo, findFile (op.run dev s d).self.files_map_ name = some g ∧
      (g.f_stat = f.f_stat ∨
        (f.f_stat = ZnsFileStat.kCreated ∧ g.f_stat = ZnsFileStat.kClosed) ∨
        (f.f_stat = ZnsFileStat.kCreated ∧ g.f_stat = ZnsFileStat.kDeleted) ∨
        (f.f_stat = ZnsFileStat.kClosed ∧ g.f_stat = ZnsFileStat.kDeleted)) := by
  have same : ∃ g : ZnsFileInfo, findFile s.files_map_ name = some g ∧
      (g.f_stat = f.f_stat ∨
        (f.f_stat = ZnsFileStat.kCreated ∧ g.f_stat = ZnsFileStat.kClosed) ∨
        (f.f_stat = ZnsFileStat.kCreated ∧ g.f_stat = ZnsFileStat.kDeleted) ∨
        (f.f_stat = ZnsFileStat.kClosed ∧ g.f_stat = ZnsFileStat.kDeleted)) :=
    ⟨f, hf, Or.inl rfl⟩
  cases op with
  | GetAndUseOneEmptyZone =>
    simp only [Op.run, leveldb.GetAndUseOneEmptyZone]
    split <;> exact same
  | CreateFileOnZone now file_name zone_id =>
    simp only [Op.run, leveldb.CreateFileOnZone]
    split_ifs with hc
    · exact same
    · have hne : ¬ file_name = name := by
        intro e
        apply hc
        left
        rw [e, hf]
        rfl
      simp only [findFile_cons, if_neg hne]
      exact same
  | WriteFileOnZone file_name len buffer =>
    simp only [Op.run, leveldb.WriteFileOnZone]
    split
    · exact same
    · split_ifs
      all_goals first
        | exact same
        | (simp only [findFile_updateFile, hf]
           split_ifs
           · exact ⟨_, rfl, Or.inl rfl⟩
           · exact ⟨f, rfl, Or.inl rfl⟩)
  | CloseFileOnZone file_name =>
    simp only [Op.run, leveldb.CloseFileOnZone]
    split
    · exact same
    · next found hfound =>
      split_ifs with hdel
      all_goals first
        | exact same
        | (simp only [findFile_updateFile, hf]
           split_ifs with hn
           · subst hn
             have hff : found = f := Option.some.inj (hfound.symm.trans hf)
             subst hff
             refine ⟨_, rfl, ?_⟩
             cases hst : found.f_stat with
             | kCreated => exact Or.inr (Or.inl ⟨rfl, rfl⟩)
             | kClosed => exact Or.inl rfl
             | kDeleted => exact absurd hst hdel
           · exact ⟨f, rfl, Or.inl rfl⟩)
  | ReadFileOnZone file_name offset len =>
    simp only [Op.run, leveldb.ReadFileOnZone]
    split
    · exact same
    · split_ifs <;> exact same
  | DeleteFileOnZone now file_name =>
    simp only [Op.run, leveldb.DeleteFileOnZone]
    split
    · exact same
    · next found hfound =>
      split_ifs
      all_goals first
        | exact same
        | (simp only [findFile_updateFile, hf]
           split_ifs with hn
           · refine ⟨_, rfl, ?_⟩
             cases hst : f.f_stat with
             | kCreated => exact Or.inr (Or.inr (Or.inl ⟨rfl, rfl⟩))
             | kClosed => exact Or.inr (Or.inr (Or.inr ⟨rfl, rfl⟩))
             | kDeleted => exact Or.inl rfl
           · exact ⟨f, rfl, Or.inl rfl⟩)

/-- Along any sequence of calls the record stays in `files_map_` and the rank
of its status does not decrease. -/
theorem status_rank_runOps {D : Type} (dev : ZoneDevice D) (ops : List Op) (name : String) :
    ∀ (sd : ZoneMapping × D) (f : ZnsFileInfo), findFile sd.1.files_map_ name = some f →
      ∃ g : ZnsFileInfo, findFile (runOps dev ops sd).1.files_map_ name = some g ∧
        f.f_stat.rank ≤ g.f_stat.rank := by
  induction ops with
  | nil => intro sd f hf; exact ⟨f, hf, le_refl _⟩
  | cons op ops ih =>
    intro sd f hf
    obtain ⟨g, hg, hstep⟩ := status_step dev sd.1 sd.2 op name f hf
    obtain ⟨k, hk, hle⟩ := ih ((op.run dev sd.1 sd.2).self, (op.run dev sd.1 sd.2).zns) g hg
    refine ⟨k, hk, le_trans ?_ hle⟩
    rcases hstep with h | ⟨h1, h2⟩ | ⟨h1, h2⟩ | ⟨h1, h2⟩
    · rw [h]
    · rw [h1, h2]; decide
    · rw [h1, h2]; decide
    · rw [h1, h2]; decide

/-- C17 (file status state machine), as stated, fails: the record of "a" has
status `kCreated`, and `DeleteFileOnZone("a")` takes it to `kDeleted` with
no `kClosed` in between. -/
theorem delete_skips_closed :
    (findFile afterCreate.1.files_map_ "a").map (fun f => f.f_stat)
      = some ZnsFileStat.kCreated ∧
    (DeleteFileOnZone wpDevice afterCreate.1 afterCreate.2 2 "a").status = Status.OK ∧
    (findFile (DeleteFileOnZone wpDevice afterCreate.1 afterCreate.2 2 "a").self.files_map_
      "a").map (fun f => f.f_stat) = some ZnsFileStat.kDeleted := by
  decide

/-- C17 (file status state machine), amended: in every state, a call leaves
a record in `files_map_` and either keeps its status or takes it along
`kCreated -> kClosed`, `kCreated -> kDeleted` or `kClosed -> kDeleted`; and
over every sequence of calls the status never moves back (a `kClosed` or
`kDeleted` record is never `kCreated` again, a `kDeleted` record stays
`kDeleted`). -/
theorem status_state_machine {D : Type} (dev : ZoneDevice D) (s : ZoneMapping) (d : D)
    (name : String) (f : ZnsFileInfo) (hf : findFile s.files_map_ name = some f) :
    (∀ op : Op, ∃ g : ZnsFileInfo, findFile (op.run dev s d).self.files_map_ name = some g ∧
      (g.f_stat = f.f_stat ∨
        (f.f_stat = ZnsFileStat.kCreated ∧ g.f_stat = ZnsFileStat.kClosed) ∨
        (f.f_stat = ZnsFileStat.kCreated ∧ g.f_stat = ZnsFileStat.kDeleted) ∨
        (f.f_stat = ZnsFileStat.kClosed ∧ g.f_stat = ZnsFileStat.kDeleted))) ∧
    (∀ ops : List Op, ∃ g : ZnsFileInfo,
      findFile (runOps dev ops (s, d)).1.files_map_ name = some g ∧
      (f.f_stat ≠ ZnsFileStat.kCreated → g.f_stat ≠ ZnsFileStat.kCreated) ∧
      (f.f_stat = ZnsFileStat.kDeleted → g.f_stat = ZnsFileStat.kDeleted)) := by
  refine ⟨fun op => status_step dev s d op name f hf, fun ops => ?_⟩
  obtain ⟨g, hg, hle⟩ := status_rank_runOps dev ops name (s, d) f hf
  refine ⟨g, hg, ?_, ?_⟩
  · intro h1 h2
    rw [h2] at hle
    cases hst : f.f_stat with
    | kCreated => exact h1 hst
    | kClosed => rw [hst] at hle; exact absurd hle (by decide)
    | kDeleted => rw [hst] at hle; exact absurd hle (by decide)
  · intro h1
    rw [h1] at hle
    cases hst : g.f_stat with
    | kCreated => rw [hst] at hle; exact absurd hle (by decide)
    | kClosed => rw [hst] at hle; exact absurd hle (by decide)
    | kDeleted => rfl

/-- Closing the created file "a" takes its status to `kClosed`. -/
theorem status_state_machine_witness :
    findFile afterWrite.1.files_map_ "a" = some ⟨"a", 0, 0, 10, ZnsFileStat.kCreated, 1, 0⟩ ∧
    ∃ g : ZnsFileInfo,
      findFile ((Op.CloseFileOnZone "a").run wpDevice afterWrite.1 afterWrite.2).self.files_map_
        "a" = some g ∧
      (g.f_stat = ZnsFileStat.kCreated ∨
        (ZnsFileStat.kCreated = ZnsFileStat.kCreated ∧ g.f_stat = ZnsFileStat.kClosed) ∨
        (ZnsFileStat.kCreated = ZnsFileStat.kCreated ∧ g.f_stat = ZnsFileStat.kDeleted) ∨
        (ZnsFileStat.kCreated = ZnsFileStat.kClosed ∧ g.f_stat = ZnsFileStat.kDeleted)) :=
  ⟨by decide,
    (status_state_machine wpDevice afterWrite.1 afterWrite.2 "a"
      ⟨"a", 0, 0, 10, ZnsFileStat.kCreated, 1, 0⟩ (by decide)).1 (Op.CloseFileOnZone "a")⟩

/-! ## Device failures -/

/-- C18 (device errors are propagated), evaluated: on a device whose writes
and resets fail, a write to "a" returns the device's I/O error; but deleting
"a" (10 bytes written, not closed) issues `ResetWritePointer` on zone 0,
which fails, and `DeleteFileOnZone` still returns OK and moves zone 0 to
`empty_zones_` with the device write pointer left at 10. -/
theorem delete_drops_reset_failure :
    (WriteFileOnZone brokenDevice afterWrite.1 afterWrite.2 "a" 1 [7]).status
      = Status.IOError "device" ∧
    (brokenDevice.ResetWritePointer afterWrite.2 0).1 = Status.IOError "device" ∧
    (DeleteFileOnZone brokenDevice afterWrite.1 afterWrite.2 2 "a").calls
      = [DevCall.ResetWritePointer 0] ∧
    (DeleteFileOnZone brokenDevice afterWrite.1 afterWrite.2 2 "a").status = Status.OK ∧
    (DeleteFileOnZone brokenDevice afterWrite.1 afterWrite.2 2 "a").self.empty_zones_ = [0] ∧
    brokenDevice.write_pointer
      (DeleteFileOnZone brokenDevice afterWrite.1 afterWrite.2 2 "a").zns 0 = 10 := by
  decide

/-! ## File extents -/

/-- C19 (disjoint file extents), evaluated on the device whose write pointer
starts at 0 and advances with each write: "a" and "b" are created on zone 0
before either is written, so both get offset 0; the 10 bytes of "a" go to
device offset 0 and the 10 bytes of "b" to device offset 10, yet both
records cover `[0, 10)`, and reading "b" addresses the bytes written through
"a". -/
theorem interleaved_files_overlap :
    (WriteFileOnZone wpDevice twoFiles.1 twoFiles.2 "a" 10 (List.replicate 10 1)).calls
      = [DevCall.ReportZone 0, DevCall.ZoneWrite 0 ⟨0, 0, 10⟩ (List.replicate 10 1)] ∧
    (WriteFileOnZone wpDevice
      (WriteFileOnZone wpDevice twoFiles.1 twoFiles.2 "a" 10 (List.replicate 10 1)).self
      (WriteFileOnZone wpDevice twoFiles.1 twoFiles.2 "a" 10 (List.replicate 10 1)).zns
      "b" 10 (List.replicate 10 2)).calls
      = [DevCall.ReportZone 0, DevCall.ZoneWrite 0 ⟨0, 10, 10⟩ (List.replicate 10 2)] ∧
    findFile interleaved.1.files_map_ "a" = some ⟨"a", 0, 0, 10, ZnsFileStat.kCreated, 1, 0⟩ ∧
    findFile interleaved.1.files_map_ "b" = some ⟨"b", 0, 0, 10, ZnsFileStat.kCreated, 2, 0⟩ ∧
    (0 : Int) ∈ interleaved.1.used_zones_ ∧
    (zoneAt interleaved.1.zone_list_ 0).files_map = ["b", "a"] ∧
    (ReadFileOnZone wpDevice interleaved.1 interleaved.2 "b" 0 10).calls
      = [DevCall.ZoneRead 0 ⟨0, 0, 10⟩] := by
  decide

/-! ## A writer that is not alone in its zone -/

/-- C20 (single-writer tail invariant), evaluated on a device that keeps its
bytes and whose write pointer advances with each successful write: zone 0 is
reclaimed while "b" is still live on it and acquired again, and "f" is then
the only file created on it.  "f" is written `[1, 2]`, "b" is written `[9]`,
"f" is written `[3]`; all three writes succeed.  The last write lands at
device offset 3 although the logical end of "f" is at 2; afterwards "f" has
offset 0 and length 3 while the write pointer is 4, and reading "f"
addresses `[0, 3)`, which holds `[1, 2, 9]` and not `[1, 2, 3]`. -/
theorem orphan_breaks_tail :
    (reach dataDevice 1 (fun _ => 0) [[]]
      [Op.GetAndUseOneEmptyZone, Op.CreateFileOnZone 1 "b" 0, Op.CreateFileOnZone 2 "a" 0,
        Op.DeleteFileOnZone 3 "a"]).1.empty_zones_ = [0] ∧
    orphanStart.1.used_zones_ = [0] ∧
    findFile orphanStart.1.files_map_ "b" = some ⟨"b", 0, 0, 0, ZnsFileStat.kCreated, 1, 0⟩ ∧
    findFile orphanStart.1.files_map_ "f" = some ⟨"f", 0, 0, 0, ZnsFileStat.kCreated, 4, 0⟩ ∧
    dataDevice.write_pointer orphanStart.2 0 = 0 ∧
    (WriteFileOnZone dataDevice orphanStart.1 orphanStart.2 "f" 2 [1, 2]).status = Status.OK ∧
    (WriteFileOnZone dataDevice orphanFirst.1 orphanFirst.2 "b" 1 [9]).status = Status.OK ∧
    findFile orphanOther.1.files_map_ "f" = some ⟨"f", 0, 0, 2, ZnsFileStat.kCreated, 4, 0⟩ ∧
    (WriteFileOnZone dataDevice orphanOther.1 orphanOther.2 "f" 1 [3]).status = Status.OK ∧
    (WriteFileOnZone dataDevice orphanOther.1 orphanOther.2 "f" 1 [3]).calls
      = [DevCall.ReportZone 0, DevCall.ZoneWrite 0 ⟨0, 3, 1⟩ [3]] ∧
    findFile orphanTail.1.files_map_ "f" = some ⟨"f", 0, 0, 3, ZnsFileStat.kCreated, 4, 0⟩ ∧
    dataDevice.write_pointer orphanTail.2 0 = 4 ∧
    dataContent orphanTail.2 0 = [1, 2, 9, 3] ∧
    (ReadFileOnZone dataDevice orphanTail.1 orphanTail.2 "f" 0 3).calls
      = [DevCall.ZoneRead 0 ⟨0, 0, 3⟩] ∧
    (ReadFileOnZone dataDevice orphanTail.1 orphanTail.2 "f" 0 3).data = [1, 2, 9] := by
  decide

end leveldb
